import Mathlib

/-!
# Geometrical transformations of `geom/geom/inc/TGeoMatrix.h`

A shallow embedding of the transformation classes declared in `TGeoMatrix.h`
(`TGeoTranslation`, `TGeoRotation`, `TGeoScale`, `TGeoCombiTrans`,
`TGeoGenTrans`, `TGeoIdentity`, `TGeoHMatrix`).

Conventions of the embedding:

* a `Double_t` is an exact rational number (`ℚ`): rounding is not modelled,
  so every statement below is about the exact arithmetic the code performs;
* `Double_t v[3]` is a `Vec3`, `Double_t m[9]` is a row-major `Mat3`;
* the status word `fBits` of `TObject` is a natural number;
* member functions whose body is written in the header are transcribed from
  it; member functions that are only declared there are modelled from the
  specification and say so in their doc comment.

The last part embeds the two helper functions of
`roofit/roofitcore/test/testRooFuncWrapper.cxx`, `getNumDerivative` and
`randomizeParameters`, and the hard-coded Gaussian of its first test.  The
classes the helpers call are not part of the sources and enter as parameters,
and so does the arithmetic of doubles, with exact arithmetic and an arithmetic
that overflows as two of its instances; the Gaussian is a function of real
numbers.
-/

namespace TGeo

/-! ## Numeric buffers -/

/-- Three doubles, `Double_t v[3]`. -/
@[ext]
structure Vec3 where
  x : ℚ
  y : ℚ
  z : ℚ
deriving DecidableEq

/-- Nine doubles in row-major order, `Double_t m[3*3]`: `mIJ` is `m[3*I+J]`. -/
@[ext]
structure Mat3 where
  m00 : ℚ
  m01 : ℚ
  m02 : ℚ
  m10 : ℚ
  m11 : ℚ
  m12 : ℚ
  m20 : ℚ
  m21 : ℚ
  m22 : ℚ
deriving DecidableEq

/-- The global `kNullVector`. -/
def kNullVector : Vec3 := ⟨0, 0, 0⟩

/-- The global `kIdentityMatrix`. -/
def kIdentityMatrix : Mat3 := ⟨1, 0, 0, 0, 1, 0, 0, 0, 1⟩

/-- The global `kUnitScale`. -/
def kUnitScale : Vec3 := ⟨1, 1, 1⟩

namespace Vec3

/-- Component-wise sum. -/
def add (a b : Vec3) : Vec3 := ⟨a.x + b.x, a.y + b.y, a.z + b.z⟩

/-- Component-wise difference. -/
def sub (a b : Vec3) : Vec3 := ⟨a.x - b.x, a.y - b.y, a.z - b.z⟩

/-- Component-wise opposite. -/
def neg (a : Vec3) : Vec3 := ⟨-a.x, -a.y, -a.z⟩

/-- Component-wise product, the action of a scale on a vector. -/
def hmul (s v : Vec3) : Vec3 := ⟨s.x * v.x, s.y * v.y, s.z * v.z⟩

/-- Component-wise quotient `v / s`. -/
def hdiv (v s : Vec3) : Vec3 := ⟨v.x / s.x, v.y / s.y, v.z / s.z⟩

/-- Component-wise reciprocal. -/
def recip (s : Vec3) : Vec3 := ⟨1 / s.x, 1 / s.y, 1 / s.z⟩

/-- Product of the three components. -/
def prod (s : Vec3) : ℚ := s.x * s.y * s.z

/-- No component is exactly zero. -/
def NonZero (s : Vec3) : Prop := s.x ≠ 0 ∧ s.y ≠ 0 ∧ s.z ≠ 0

instance (s : Vec3) : Decidable s.NonZero := by
  unfold NonZero; infer_instance

end Vec3

namespace Mat3

/-- Matrix times column vector: `out[i] = Σ_j m[3*i+j] * v[j]`. -/
def mulVec (m : Mat3) (v : Vec3) : Vec3 :=
  ⟨m.m00 * v.x + m.m01 * v.y + m.m02 * v.z,
   m.m10 * v.x + m.m11 * v.y + m.m12 * v.z,
   m.m20 * v.x + m.m21 * v.y + m.m22 * v.z⟩

/-- Standard 3x3 matrix product `a · b`. -/
def mul (a b : Mat3) : Mat3 :=
  ⟨a.m00 * b.m00 + a.m01 * b.m10 + a.m02 * b.m20,
   a.m00 * b.m01 + a.m01 * b.m11 + a.m02 * b.m21,
   a.m00 * b.m02 + a.m01 * b.m12 + a.m02 * b.m22,
   a.m10 * b.m00 + a.m11 * b.m10 + a.m12 * b.m20,
   a.m10 * b.m01 + a.m11 * b.m11 + a.m12 * b.m21,
   a.m10 * b.m02 + a.m11 * b.m12 + a.m12 * b.m22,
   a.m20 * b.m00 + a.m21 * b.m10 + a.m22 * b.m20,
   a.m20 * b.m01 + a.m21 * b.m11 + a.m22 * b.m21,
   a.m20 * b.m02 + a.m21 * b.m12 + a.m22 * b.m22⟩

/-- Transposed matrix. -/
def transpose (a : Mat3) : Mat3 :=
  ⟨a.m00, a.m10, a.m20, a.m01, a.m11, a.m21, a.m02, a.m12, a.m22⟩

/-- The matrix `a · diag(s)`: column `j` of `a` multiplied by `s[j]`. -/
def mulDiag (a : Mat3) (s : Vec3) : Mat3 :=
  ⟨a.m00 * s.x, a.m01 * s.y, a.m02 * s.z,
   a.m10 * s.x, a.m11 * s.y, a.m12 * s.z,
   a.m20 * s.x, a.m21 * s.y, a.m22 * s.z⟩

/-- The matrix `diag(s) · a`: row `i` of `a` multiplied by `s[i]`. -/
def diagMul (s : Vec3) (a : Mat3) : Mat3 :=
  ⟨s.x * a.m00, s.x * a.m01, s.x * a.m02,
   s.y * a.m10, s.y * a.m11, s.y * a.m12,
   s.z * a.m20, s.z * a.m21, s.z * a.m22⟩

/-- Standard 3x3 determinant (expansion along the first row). -/
def det (a : Mat3) : ℚ :=
  a.m00 * (a.m11 * a.m22 - a.m12 * a.m21)
  - a.m01 * (a.m10 * a.m22 - a.m12 * a.m20)
  + a.m02 * (a.m10 * a.m21 - a.m11 * a.m20)

/-- Columns are unit vectors and mutually orthogonal, exactly: `aᵗ · a = I`. -/
def IsOrthonormal (a : Mat3) : Prop := a.transpose.mul a = kIdentityMatrix

instance (a : Mat3) : Decidable a.IsOrthonormal := by
  unfold IsOrthonormal; infer_instance

/-- The same nine numbers as a Mathlib matrix, used to borrow linear algebra. -/
def toMatrix (a : Mat3) : Matrix (Fin 3) (Fin 3) ℚ :=
  !![a.m00, a.m01, a.m02; a.m10, a.m11, a.m12; a.m20, a.m21, a.m22]

end Mat3

/-! ## Status bits (`TObject::fBits`) -/

/-- Modelled from the spec: the macro `BIT(n)` of the base infrastructure is
not part of the sources; it is the word with only bit `n` set. -/
def BIT (n : Nat) : Nat := 2 ^ n

/-- Modelled from the spec: `TObject::TestBit` is not part of the sources; a
classification flag is read as "some bit of the mask `f` is set in the word". -/
def TestBit (fBits f : Nat) : Bool := (fBits &&& f) != 0

/-- Modelled from the spec: one-argument `TObject::SetBit` is not part of the
sources; it switches the bits of the mask `f` on. -/
def SetBit (fBits f : Nat) : Nat := fBits ||| f

/-- Modelled from the spec: `TObject::ResetBit` is not part of the sources; it
switches the bits of the mask `f` off. -/
def ResetBit (fBits f : Nat) : Nat := fBits ^^^ (fBits &&& f)

/-- Modelled from the spec: two-argument `TObject::SetBit(f, set)` is not part
of the sources; it switches the bits of `f` on or off according to `set`. -/
def SetBitTo (fBits f : Nat) (set : Bool) : Nat :=
  if set then SetBit fBits f else ResetBit fBits f

/-- The enumerator `kGeoIdentity`. -/
def kGeoIdentity : Nat := 0
/-- The enumerator `kGeoShared`. -/
def kGeoShared : Nat := BIT 14
/-- The enumerator `kGeoTranslation`. -/
def kGeoTranslation : Nat := BIT 17
/-- The enumerator `kGeoRotation`. -/
def kGeoRotation : Nat := BIT 18
/-- The enumerator `kGeoScale`. -/
def kGeoScale : Nat := BIT 19
/-- The enumerator `kGeoReflection`. -/
def kGeoReflection : Nat := BIT 20
/-- The enumerator `kGeoRegistered`. -/
def kGeoRegistered : Nat := BIT 21
/-- The enumerator `kGeoSavePrimitive`. -/
def kGeoSavePrimitive : Nat := BIT 22
/-- The enumerator `kGeoMatrixOwned`. -/
def kGeoMatrixOwned : Nat := BIT 23
/-- The enumerator `kGeoCombiTrans`. -/
def kGeoCombiTrans : Nat := kGeoTranslation ||| kGeoRotation
/-- The enumerator `kGeoGenTrans`. -/
def kGeoGenTrans : Nat := kGeoTranslation ||| kGeoRotation ||| kGeoScale

/-! ## `TGeoHMatrix`: the setters written in the header -/

/-- The data members of `TGeoHMatrix` together with the status word. -/
structure TGeoHMatrix where
  fBits : Nat
  fTranslation : Vec3
  fRotationMatrix : Mat3
  fScale : Vec3
deriving DecidableEq

namespace TGeoHMatrix

/-- `IsTranslation()` of the base class. -/
def IsTranslation (h : TGeoHMatrix) : Bool := TestBit h.fBits kGeoTranslation
/-- `IsRotation()` of the base class. -/
def IsRotation (h : TGeoHMatrix) : Bool := TestBit h.fBits kGeoRotation
/-- `IsScale()` of the base class. -/
def IsScale (h : TGeoHMatrix) : Bool := TestBit h.fBits kGeoScale

/-- `SetDx(dx) {fTranslation[0] = dx; SetBit(kGeoTranslation);}`. -/
def SetDx (h : TGeoHMatrix) (dx : ℚ) : TGeoHMatrix :=
  { h with fTranslation := { h.fTranslation with x := dx },
           fBits := SetBit h.fBits kGeoTranslation }

/-- `SetDy(dy) {fTranslation[1] = dy; SetBit(kGeoTranslation);}`. -/
def SetDy (h : TGeoHMatrix) (dy : ℚ) : TGeoHMatrix :=
  { h with fTranslation := { h.fTranslation with y := dy },
           fBits := SetBit h.fBits kGeoTranslation }

/-- `SetDz(dz) {fTranslation[2] = dz; SetBit(kGeoTranslation);}`. -/
def SetDz (h : TGeoHMatrix) (dz : ℚ) : TGeoHMatrix :=
  { h with fTranslation := { h.fTranslation with z := dz },
           fBits := SetBit h.fBits kGeoTranslation }

/-- `SetTranslation(vect) {SetBit(kGeoTranslation); memcpy(fTranslation, vect, ..);}`. -/
def SetTranslation (h : TGeoHMatrix) (vect : Vec3) : TGeoHMatrix :=
  { h with fBits := SetBit h.fBits kGeoTranslation, fTranslation := vect }

/-- `SetRotation(matrix) {SetBit(kGeoRotation); memcpy(fRotationMatrix, matrix, ..);}`.
The function returns `void`: the new state is all a caller can observe. -/
def SetRotation (h : TGeoHMatrix) (matrix : Mat3) : TGeoHMatrix :=
  { h with fBits := SetBit h.fBits kGeoRotation, fRotationMatrix := matrix }

/-- `SetScale(scale) {SetBit(kGeoScale); memcpy(fScale, scale, ..);}`. -/
def SetScale (h : TGeoHMatrix) (scale : Vec3) : TGeoHMatrix :=
  { h with fBits := SetBit h.fBits kGeoScale, fScale := scale }

/-- The classification agrees with the content: each capability flag is set
exactly when the corresponding component is not the neutral one. -/
def FlagsAgree (h : TGeoHMatrix) : Prop :=
  (h.IsTranslation = true ↔ h.fTranslation ≠ kNullVector) ∧
  (h.IsRotation = true ↔ h.fRotationMatrix ≠ kIdentityMatrix) ∧
  (h.IsScale = true ↔ h.fScale ≠ kUnitScale)

/-- The classification covers the content: a component that is not neutral
has its capability flag set (the flag may also be set on a neutral one). -/
def FlagsCover (h : TGeoHMatrix) : Prop :=
  (h.fTranslation ≠ kNullVector → h.IsTranslation = true) ∧
  (h.fRotationMatrix ≠ kIdentityMatrix → h.IsRotation = true) ∧
  (h.fScale ≠ kUnitScale → h.IsScale = true)

end TGeoHMatrix

/-! ## `TGeoGenTrans`: the setter written in the header -/

/-- The data members of `TGeoGenTrans` (those of `TGeoCombiTrans` plus the
scale) together with the status word; `fRotation` is a pointer, `none` being
the null pointer. -/
structure TGeoGenTrans where
  fBits : Nat
  fTranslation : Vec3
  fRotation : Option Nat
  fScale : Vec3
deriving DecidableEq

namespace TGeoGenTrans

/-- `IsScale()` of the base class. -/
def IsScale (g : TGeoGenTrans) : Bool := TestBit g.fBits kGeoScale

/-- `SetScale(Double_t *scale) {memcpy(&fScale[0], scale, 3*sizeof(Double_t));}`. -/
def SetScale (g : TGeoGenTrans) (scale : Vec3) : TGeoGenTrans :=
  { g with fScale := scale }

/-- `IsTranslation()` of the base class. -/
def IsTranslation (g : TGeoGenTrans) : Bool := TestBit g.fBits kGeoTranslation
/-- `IsRotation()` of the base class. -/
def IsRotation (g : TGeoGenTrans) : Bool := TestBit g.fBits kGeoRotation

/-- The classification agrees with the content, as for `TGeoHMatrix`; `rot`
is the matrix of the rotation object the pointer `fRotation` designates. -/
def FlagsAgree (g : TGeoGenTrans) (rot : Mat3) : Prop :=
  (g.IsTranslation = true ↔ g.fTranslation ≠ kNullVector) ∧
  (g.IsRotation = true ↔ rot ≠ kIdentityMatrix) ∧
  (g.IsScale = true ↔ g.fScale ≠ kUnitScale)

/-- The classification covers the content, as for `TGeoHMatrix`. -/
def FlagsCover (g : TGeoGenTrans) (rot : Mat3) : Prop :=
  (g.fTranslation ≠ kNullVector → g.IsTranslation = true) ∧
  (rot ≠ kIdentityMatrix → g.IsRotation = true) ∧
  (g.fScale ≠ kUnitScale → g.IsScale = true)

end TGeoGenTrans

/-! ## `TGeoScale` -/

/-- Failure conditions of the error taxonomy. -/
inductive GeoError where
  | invalidParameter
deriving DecidableEq

/-- The data member of `TGeoScale` together with the status word. -/
structure TGeoScale where
  fBits : Nat
  fScale : Vec3
deriving DecidableEq

namespace TGeoScale

/-- `IsReflection()` of the base class. -/
def IsReflection (s : TGeoScale) : Bool := TestBit s.fBits kGeoReflection

/-- `ReflectX(Bool_t, Bool_t) {fScale[0]=-fScale[0]; SetBit(kGeoReflection, !IsReflection());}`. -/
def ReflectX (s : TGeoScale) (_leftside _rotonly : Bool) : TGeoScale :=
  { fScale := { s.fScale with x := -s.fScale.x },
    fBits := SetBitTo s.fBits kGeoReflection (!s.IsReflection) }

/-- `ReflectY(Bool_t, Bool_t) {fScale[1]=-fScale[1]; SetBit(kGeoReflection, !IsReflection());}`. -/
def ReflectY (s : TGeoScale) (_leftside _rotonly : Bool) : TGeoScale :=
  { fScale := { s.fScale with y := -s.fScale.y },
    fBits := SetBitTo s.fBits kGeoReflection (!s.IsReflection) }

/-- `ReflectZ(Bool_t, Bool_t) {fScale[2]=-fScale[2]; SetBit(kGeoReflection, !IsReflection());}`. -/
def ReflectZ (s : TGeoScale) (_leftside _rotonly : Bool) : TGeoScale :=
  { fScale := { s.fScale with z := -s.fScale.z },
    fBits := SetBitTo s.fBits kGeoReflection (!s.IsReflection) }

/-- Modelled from the spec: the body of `TGeoScale::SetScale(sx, sy, sz)` is
missing from the sources.  "Validates none of sx,sy,sz is exactly zero — fails
with an invalid-parameter condition if any is zero; otherwise unrestricted
(negative allowed ⇒ reflection)"; "scale product sign marks reflection". -/
def SetScale (s : TGeoScale) (sx sy sz : ℚ) : Except GeoError TGeoScale :=
  if sx = 0 ∨ sy = 0 ∨ sz = 0 then
    Except.error GeoError.invalidParameter
  else
    Except.ok { fScale := ⟨sx, sy, sz⟩,
                fBits := SetBitTo s.fBits kGeoReflection (decide (sx * sy * sz < 0)) }

/-- Modelled from the spec: the body of the constructor
`TGeoScale::TGeoScale(sx, sy, sz)` is missing from the sources.  A new scale
carries the has-scale classification and takes its factors through the same
validation as `SetScale`. -/
def construct (sx sy sz : ℚ) : Except GeoError TGeoScale :=
  SetScale { fBits := kGeoScale, fScale := kUnitScale } sx sy sz

end TGeoScale

/-! ## `TGeoRotation` -/

/-- The data member of `TGeoRotation` together with the status word. -/
structure TGeoRotation where
  fBits : Nat
  fRotationMatrix : Mat3
deriving DecidableEq

/-- Modelled from the spec: the tolerance of the orthonormality test
("within tolerance ≈1e-5"). -/
def kTolerance : ℚ := 1 / 100000

namespace TGeoRotation

/-- Modelled from the spec: the body of `TGeoRotation::IsValid` is missing
from the sources.  It "verifies columns are unit vectors and mutually
orthogonal within tolerance ≈1e-5": every entry of `Rᵗ·R` (the scalar products
of the columns) is within the tolerance of the identity matrix. -/
def IsValid (r : TGeoRotation) : Bool :=
  let g := r.fRotationMatrix.transpose.mul r.fRotationMatrix
  decide (|g.m00 - 1| ≤ kTolerance ∧ |g.m11 - 1| ≤ kTolerance ∧ |g.m22 - 1| ≤ kTolerance ∧
          |g.m01| ≤ kTolerance ∧ |g.m02| ≤ kTolerance ∧ |g.m12| ≤ kTolerance)

/-- Modelled from the spec: the body of `TGeoRotation::Determinant` is
missing from the sources; it is the "standard 3x3 determinant". -/
def Determinant (r : TGeoRotation) : ℚ := r.fRotationMatrix.det

end TGeoRotation

/-! ## The seven variants as values -/

/-- The class of a transformation. -/
inductive Kind where
  | identity
  | translation
  | rotation
  | scale
  | combi
  | gen
  | hmatrix
deriving DecidableEq

/-- A transformation reduced to its numeric content.  `combi` and `gen` carry
the matrix of the rotation object their `fRotation` pointer designates. -/
inductive Transform where
  | identity
  | translation (t : Vec3)
  | rotation (r : Mat3)
  | scale (s : Vec3)
  | combi (t : Vec3) (r : Mat3)
  | gen (t : Vec3) (r : Mat3) (s : Vec3)
  | hmatrix (t : Vec3) (r : Mat3) (s : Vec3)
deriving DecidableEq

namespace Transform

/-- The class of a value. -/
def kind : Transform → Kind
  | identity => Kind.identity
  | translation _ => Kind.translation
  | rotation _ => Kind.rotation
  | scale _ => Kind.scale
  | combi _ _ => Kind.combi
  | gen _ _ _ => Kind.gen
  | hmatrix _ _ _ => Kind.hmatrix

/-- `GetTranslation()`: the stored vector, `kNullVector` for the classes
without one. -/
def GetTranslation : Transform → Vec3
  | identity => kNullVector
  | translation t => t
  | rotation _ => kNullVector
  | scale _ => kNullVector
  | combi t _ => t
  | gen t _ _ => t
  | hmatrix t _ _ => t

/-- `GetRotationMatrix()`: the stored matrix, `kIdentityMatrix` for the
classes without one. -/
def GetRotationMatrix : Transform → Mat3
  | identity => kIdentityMatrix
  | translation _ => kIdentityMatrix
  | rotation r => r
  | scale _ => kIdentityMatrix
  | combi _ r => r
  | gen _ r _ => r
  | hmatrix _ r _ => r

/-- `GetScale()`: the stored factors, `kUnitScale` for the classes without
them (`TGeoCombiTrans::GetScale` returns `kUnitScale`). -/
def GetScale : Transform → Vec3
  | identity => kUnitScale
  | translation _ => kUnitScale
  | rotation _ => kUnitScale
  | scale s => s
  | combi _ _ => kUnitScale
  | gen _ _ s => s
  | hmatrix _ _ s => s

/-- Modelled from the spec: the bodies of the `LocalToMaster` overrides are
missing from the sources (only `TGeoIdentity::LocalToMaster`, a copy, is
written in the header).  Translation: `local + T`; rotation: `R·v`; scale:
`(sx·vx, sy·vy, sz·vz)`; combined: `R·v + T`; general and homogeneous:
`master = R·(S·local) + T` (scale, then rotate, then translate). -/
def LocalToMaster : Transform → Vec3 → Vec3
  | identity, v => v
  | translation t, v => v.add t
  | rotation r, v => r.mulVec v
  | scale s, v => s.hmul v
  | combi t r, v => (r.mulVec v).add t
  | gen t r s, v => (r.mulVec (s.hmul v)).add t
  | hmatrix t r s, v => (r.mulVec (s.hmul v)).add t

/-- Modelled from the spec: the bodies of the `Inverse` overrides are missing
from the sources; the header fixes the result class, `TGeoHMatrix`.
Identity: itself; translation: `-T`; rotation: the transpose; scale: the
reciprocal of each component; combined: `T_inv = -Rᵗ·T`, `R_inv = Rᵗ`;
general: the transformation that "inverts in reverse application order",
`local = Sinv·(Rᵗ·(master - T))`, held in the homogeneous result as the 3x3
block `diag(Sinv)·Rᵗ` with unit scale and translation `-Sinv·(Rᵗ·T)`;
homogeneous: "rotation transpose, scale reciprocal, translation
recombination", the translation being `-Sinv·(Rᵗ·T)`, which is the rule of
the combined and general transformations when the scale is `(1,1,1)`.

The specification names the stored rotation and scale of the homogeneous
inverse and asks for the inverse mapping as well.  With the mapping
`R·(S·v) + T` both hold together exactly when `Rᵗ` commutes with the scaling
(unit or uniform scale, identity rotation, ...); otherwise the components
named by the specification are kept.  The statements below use the
homogeneous case only where every reading of "translation recombination"
agrees: at unit scale and at zero translation. -/
def Inverse : Transform → Transform
  | identity => hmatrix kNullVector kIdentityMatrix kUnitScale
  | translation t => hmatrix t.neg kIdentityMatrix kUnitScale
  | rotation r => hmatrix kNullVector r.transpose kUnitScale
  | scale s => hmatrix kNullVector kIdentityMatrix s.recip
  | combi t r => hmatrix (r.transpose.mulVec t).neg r.transpose kUnitScale
  | gen t r s =>
      hmatrix (s.recip.hmul (r.transpose.mulVec t)).neg
        (Mat3.diagMul s.recip r.transpose) kUnitScale
  | hmatrix t r s => hmatrix (s.recip.hmul (r.transpose.mulVec t)).neg r.transpose s.recip

/-- Modelled from the spec: the bodies of the `MasterToLocal` overrides are
missing from the sources (only `TGeoIdentity::MasterToLocal`, a copy, is
written in the header).  Translation: `master - T`; rotation: `Rᵗ·v`; scale:
`(vx/sx, vy/sy, vz/sz)`; combined: `Rᵗ·(v - T)`; general and homogeneous:
`local = Sinv·(Rᵗ·(master - T))`. -/
def MasterToLocal : Transform → Vec3 → Vec3
  | identity, v => v
  | translation t, v => v.sub t
  | rotation r, v => r.transpose.mulVec v
  | scale s, v => v.hdiv s
  | combi t r, v => r.transpose.mulVec (v.sub t)
  | gen t r s, v => s.recip.hmul (r.transpose.mulVec (v.sub t))
  | hmatrix t r s, v => s.recip.hmul (r.transpose.mulVec (v.sub t))

/-- Modelled from the spec: the body of `TGeoCombiTrans::Multiply` is missing
from the sources.  `T_new = T_left + R_left·T_right`, `R_new = R_left·R_right`,
the right operand being read through its accessors. -/
def combiMultiply (tl : Vec3) (rl : Mat3) (right : Transform) : Transform :=
  combi (tl.add (rl.mulVec right.GetTranslation)) (rl.mul right.GetRotationMatrix)

/-- Modelled from the spec: the body of `TGeoHMatrix::Multiply` is missing
from the sources.  "Apply `right` first then `this`", as the "general
4x4-homogeneous-equivalent multiply collapsed to the 3+9+3 storage": with
`M = R·diag(S)` the 3x3 block of the left operand, the product has block
`M·R_right·diag(S_right)` and translation `T + M·T_right`; it is stored as
rotation `M·R_right` and scale `S_right`. -/
def hmatrixMultiply (left right : Transform) : Transform :=
  let m := left.GetRotationMatrix.mulDiag left.GetScale
  hmatrix (left.GetTranslation.add (m.mulVec right.GetTranslation))
          (m.mul right.GetRotationMatrix) right.GetScale

/-- The result class of `left * right` as the header declares it:
`TGeoTranslation`, `TGeoRotation` and `TGeoScale` have one `operator*` for an
operand of their own class, returning that class, and one for any
`TGeoMatrix`, returning `TGeoHMatrix`; `TGeoCombiTrans::operator*` returns
`TGeoCombiTrans` and is inherited unchanged by `TGeoGenTrans`;
`TGeoHMatrix::operator*` returns `TGeoHMatrix`; `TGeoIdentity` and the base
class declare none.  The operand's class stands for its static type. -/
def operatorMulKind : Kind → Kind → Option Kind
  | Kind.identity, _ => none
  | Kind.translation, Kind.translation => some Kind.translation
  | Kind.translation, _ => some Kind.hmatrix
  | Kind.rotation, Kind.rotation => some Kind.rotation
  | Kind.rotation, _ => some Kind.hmatrix
  | Kind.scale, Kind.scale => some Kind.scale
  | Kind.scale, _ => some Kind.hmatrix
  | Kind.combi, _ => some Kind.combi
  | Kind.gen, _ => some Kind.combi
  | Kind.hmatrix, _ => some Kind.hmatrix

/-- Modelled from the spec: the bodies of the `operator*` overloads are
missing from the sources; the header fixes their result classes
(`operatorMulKind`).  Translations add their vectors, rotations multiply
their matrices, scales multiply their factors, a combined (or general) left
operand composes by `combiMultiply`, and every product of class `TGeoHMatrix`
is the left operand promoted to homogeneous form and multiplied by
`hmatrixMultiply`. -/
def mul : Transform → Transform → Option Transform
  | identity, _ => none
  | translation a, translation b => some (translation (a.add b))
  | translation a, right => some (hmatrixMultiply (translation a) right)
  | rotation a, rotation b => some (rotation (a.mul b))
  | rotation a, right => some (hmatrixMultiply (rotation a) right)
  | scale a, scale b => some (scale (a.hmul b))
  | scale a, right => some (hmatrixMultiply (scale a) right)
  | combi t r, right => some (combiMultiply t r right)
  | gen t r _, right => some (combiMultiply t r right)
  | hmatrix t r s, right => some (hmatrixMultiply (hmatrix t r s) right)

/-- Modelled from the spec: in-place `Multiply(right)` of a combined
transformation, `this = this · right`, by the same rule as `operator*`. -/
def Multiply (left right : Transform) : Option Transform :=
  match left with
  | combi t r => some (combiMultiply t r right)
  | gen t r _ => some (combiMultiply t r right)
  | hmatrix t r s => some (hmatrixMultiply (hmatrix t r s) right)
  | _ => none

end Transform

/-! ## `TGeoIdentity`: the mappings written in the header -/

namespace TGeoIdentity

/-- `LocalToMaster(local, master) {memcpy(master, local, 3*sizeof(Double_t));}`:
the content of `master` on return. -/
def LocalToMaster (loc : Vec3) : Vec3 := loc

/-- `LocalToMasterVect(local, master) {memcpy(master, local, 3*sizeof(Double_t));}`. -/
def LocalToMasterVect (loc : Vec3) : Vec3 := loc

/-- `LocalToMasterBomb(local, master) {TGeoIdentity::LocalToMaster(local, master);}`. -/
def LocalToMasterBomb (loc : Vec3) : Vec3 := LocalToMaster loc

/-- `MasterToLocal(master, local) {memcpy(local, master, 3*sizeof(Double_t));}`:
the content of `local` on return. -/
def MasterToLocal (master : Vec3) : Vec3 := master

/-- `MasterToLocalVect(master, local) {memcpy(local, master, 3*sizeof(Double_t));}`. -/
def MasterToLocalVect (master : Vec3) : Vec3 := master

/-- `MasterToLocalBomb(master, local) {TGeoIdentity::MasterToLocal(master, local);}`. -/
def MasterToLocalBomb (master : Vec3) : Vec3 := MasterToLocal master

end TGeoIdentity

/-! ## Incremental rotations and reflections of `TGeoRotation` -/

/-- Cosine and sine of an angle given in degrees, as the mathematical library
evaluates them on doubles.  The library is not part of the sources: the two
functions are parameters of every definition that needs them. -/
structure Trig where
  cosDeg : ℚ → ℚ
  sinDeg : ℚ → ℚ

namespace Mat3

/-- Elementary rotation about the x axis with cosine `c` and sine `s`. -/
def rotX (c s : ℚ) : Mat3 := ⟨1, 0, 0, 0, c, -s, 0, s, c⟩

/-- Elementary rotation about the y axis with cosine `c` and sine `s`. -/
def rotY (c s : ℚ) : Mat3 := ⟨c, 0, s, 0, 1, 0, -s, 0, c⟩

/-- Elementary rotation about the z axis with cosine `c` and sine `s`. -/
def rotZ (c s : ℚ) : Mat3 := ⟨c, -s, 0, s, c, 0, 0, 0, 1⟩

/-- Row `0` with its sign flipped: `diag(-1,1,1) · a`. -/
def negRow0 (a : Mat3) : Mat3 :=
  ⟨-a.m00, -a.m01, -a.m02, a.m10, a.m11, a.m12, a.m20, a.m21, a.m22⟩

/-- Row `1` with its sign flipped: `diag(1,-1,1) · a`. -/
def negRow1 (a : Mat3) : Mat3 :=
  ⟨a.m00, a.m01, a.m02, -a.m10, -a.m11, -a.m12, a.m20, a.m21, a.m22⟩

/-- Row `2` with its sign flipped: `diag(1,1,-1) · a`. -/
def negRow2 (a : Mat3) : Mat3 :=
  ⟨a.m00, a.m01, a.m02, a.m10, a.m11, a.m12, -a.m20, -a.m21, -a.m22⟩

/-- Column `0` with its sign flipped: `a · diag(-1,1,1)`. -/
def negCol0 (a : Mat3) : Mat3 :=
  ⟨-a.m00, a.m01, a.m02, -a.m10, a.m11, a.m12, -a.m20, a.m21, a.m22⟩

/-- Column `1` with its sign flipped: `a · diag(1,-1,1)`. -/
def negCol1 (a : Mat3) : Mat3 :=
  ⟨a.m00, -a.m01, a.m02, a.m10, -a.m11, a.m12, a.m20, -a.m21, a.m22⟩

/-- Column `2` with its sign flipped: `a · diag(1,1,-1)`. -/
def negCol2 (a : Mat3) : Mat3 :=
  ⟨a.m00, a.m01, -a.m02, a.m10, a.m11, -a.m12, a.m20, a.m21, -a.m22⟩

end Mat3

namespace TGeoRotation

/-- `IsReflection()` of the base class. -/
def IsReflection (r : TGeoRotation) : Bool := TestBit r.fBits kGeoReflection

/-- Modelled from the spec: the body of `TGeoRotation::RotateX` is missing
from the sources.  It "left-multiplies the current matrix by an elementary
rotation about the named master-frame axis by `angle` degrees":
`new_matrix = R_x(angle) · old_matrix`; the object is classified as a
rotation. -/
def RotateX (tr : Trig) (r : TGeoRotation) (angle : ℚ) : TGeoRotation :=
  { fBits := SetBit r.fBits kGeoRotation,
    fRotationMatrix := (Mat3.rotX (tr.cosDeg angle) (tr.sinDeg angle)).mul r.fRotationMatrix }

/-- Modelled from the spec: the body of `TGeoRotation::RotateY` is missing
from the sources; `new_matrix = R_y(angle) · old_matrix`. -/
def RotateY (tr : Trig) (r : TGeoRotation) (angle : ℚ) : TGeoRotation :=
  { fBits := SetBit r.fBits kGeoRotation,
    fRotationMatrix := (Mat3.rotY (tr.cosDeg angle) (tr.sinDeg angle)).mul r.fRotationMatrix }

/-- Modelled from the spec: the body of `TGeoRotation::RotateZ` is missing
from the sources; `new_matrix = R_z(angle) · old_matrix`. -/
def RotateZ (tr : Trig) (r : TGeoRotation) (angle : ℚ) : TGeoRotation :=
  { fBits := SetBit r.fBits kGeoRotation,
    fRotationMatrix := (Mat3.rotZ (tr.cosDeg angle) (tr.sinDeg angle)).mul r.fRotationMatrix }

/-- Modelled from the spec: the body of `TGeoRotation::ReflectX` is missing
from the sources.  It "flips the sign of the corresponding row (master-frame
reflection) or column (local-frame reflection) depending on a `leftside`
flag"; a rotation has no translation for `rotonly` to act on; the reflection
classification is toggled. -/
def ReflectX (r : TGeoRotation) (leftside _rotonly : Bool) : TGeoRotation :=
  { fBits := SetBitTo r.fBits kGeoReflection (!r.IsReflection),
    fRotationMatrix :=
      if leftside then r.fRotationMatrix.negRow0 else r.fRotationMatrix.negCol0 }

/-- Modelled from the spec: the body of `TGeoRotation::ReflectY` is missing
from the sources; as `ReflectX`, for row or column `1`. -/
def ReflectY (r : TGeoRotation) (leftside _rotonly : Bool) : TGeoRotation :=
  { fBits := SetBitTo r.fBits kGeoReflection (!r.IsReflection),
    fRotationMatrix :=
      if leftside then r.fRotationMatrix.negRow1 else r.fRotationMatrix.negCol1 }

/-- Modelled from the spec: the body of `TGeoRotation::ReflectZ` is missing
from the sources; as `ReflectX`, for row or column `2`. -/
def ReflectZ (r : TGeoRotation) (leftside _rotonly : Bool) : TGeoRotation :=
  { fBits := SetBitTo r.fBits kGeoReflection (!r.IsReflection),
    fRotationMatrix :=
      if leftside then r.fRotationMatrix.negRow2 else r.fRotationMatrix.negCol2 }

end TGeoRotation

/-! ## `TGeoCombiTrans` and the rotation objects it points to -/

/-- The rotation objects allocated so far.  A `TGeoRotation *` is an index
into this list; every holder of the same pointer sees the same object. -/
structure RotHeap where
  cells : List TGeoRotation

namespace RotHeap

/-- The object a pointer designates, `none` for a pointer to nothing. -/
def read (h : RotHeap) (p : Nat) : Option TGeoRotation := h.cells[p]?

/-- A call of `new TGeoRotation(...)`: the new pointer and the new heap. -/
def alloc (h : RotHeap) (r : TGeoRotation) : Nat × RotHeap :=
  (h.cells.length, ⟨h.cells ++ [r]⟩)

/-- Assignment through a pointer. -/
def write (h : RotHeap) (p : Nat) (r : TGeoRotation) : RotHeap :=
  ⟨h.cells.set p r⟩

end RotHeap

/-- The data members of `TGeoCombiTrans` together with the status word;
`fRotation` is a pointer, `none` being the null pointer. -/
structure TGeoCombiTrans where
  fBits : Nat
  fTranslation : Vec3
  fRotation : Option Nat
deriving DecidableEq

namespace TGeoCombiTrans

/-- `IsOwned()` of the base class: `TestBit(kGeoMatrixOwned)`. -/
def IsOwned (c : TGeoCombiTrans) : Bool := TestBit c.fBits kGeoMatrixOwned

/-- `IsReflection()` of the base class. -/
def IsReflection (c : TGeoCombiTrans) : Bool := TestBit c.fBits kGeoReflection

/-- `GetRotation() {return fRotation;}`. -/
def GetRotation (c : TGeoCombiTrans) : Option Nat := c.fRotation

/-- Modelled from the spec: the body of the constructor
`TGeoCombiTrans(dx, dy, dz, TGeoRotation *rot)` is missing from the sources.
"Constructing from an existing Rotation pointer stores a shared, non-owning
reference." -/
def construct (dx dy dz : ℚ) (rot : Option Nat) : TGeoCombiTrans :=
  { fBits := kGeoCombiTrans, fTranslation := ⟨dx, dy, dz⟩, fRotation := rot }

/-- Modelled from the spec: the body of `TGeoCombiTrans::GetRotationMatrix`
is missing from the sources; it is the matrix of the rotation object pointed
to, the identity matrix when there is none. -/
def GetRotationMatrix (c : TGeoCombiTrans) (h : RotHeap) : Mat3 :=
  match c.fRotation.bind h.read with
  | some r => r.fRotationMatrix
  | none => kIdentityMatrix

/-- Modelled from the spec: the clone-before-mutate step of the mutating
operations of `TGeoCombiTrans`, whose bodies are missing from the sources.
A rotation that is owned is kept; a rotation that is shared (not owned) is
copied into a new object, which the transformation then owns; without any
rotation a new identity rotation is created and owned. -/
def ownRotation (c : TGeoCombiTrans) (h : RotHeap) : TGeoCombiTrans × RotHeap :=
  if c.fRotation.isSome && c.IsOwned then (c, h)
  else
    let src : TGeoRotation :=
      match c.fRotation.bind h.read with
      | some r => r
      | none => { fBits := 0, fRotationMatrix := kIdentityMatrix }
    let res := h.alloc src
    ({ c with fRotation := some res.1, fBits := SetBit c.fBits kGeoMatrixOwned }, res.2)

/-- Modelled from the spec: the mutating operations "delegate to the
owned/shared rotation but must correctly clone-before-mutate if the rotation
is shared": after `ownRotation`, the operation `f` is applied to the rotation
object the transformation now owns. -/
def mutateRotation (c : TGeoCombiTrans) (h : RotHeap) (f : TGeoRotation → TGeoRotation) :
    TGeoCombiTrans × RotHeap :=
  let owned := c.ownRotation h
  match owned.1.fRotation with
  | some a =>
    match owned.2.read a with
    | some r => (owned.1, owned.2.write a (f r))
    | none => owned
  | none => owned

/-- Modelled from the spec: `TGeoCombiTrans::RotateX(angle)`, delegated to the
rotation after the clone-before-mutate step. -/
def RotateX (tr : Trig) (c : TGeoCombiTrans) (h : RotHeap) (angle : ℚ) :
    TGeoCombiTrans × RotHeap :=
  mutateRotation { c with fBits := SetBit c.fBits kGeoRotation } h
    (fun r => r.RotateX tr angle)

/-- Modelled from the spec: `TGeoCombiTrans::RotateY(angle)`, delegated to the
rotation after the clone-before-mutate step. -/
def RotateY (tr : Trig) (c : TGeoCombiTrans) (h : RotHeap) (angle : ℚ) :
    TGeoCombiTrans × RotHeap :=
  mutateRotation { c with fBits := SetBit c.fBits kGeoRotation } h
    (fun r => r.RotateY tr angle)

/-- Modelled from the spec: `TGeoCombiTrans::RotateZ(angle)`, delegated to the
rotation after the clone-before-mutate step. -/
def RotateZ (tr : Trig) (c : TGeoCombiTrans) (h : RotHeap) (angle : ℚ) :
    TGeoCombiTrans × RotHeap :=
  mutateRotation { c with fBits := SetBit c.fBits kGeoRotation } h
    (fun r => r.RotateZ tr angle)

/-- Modelled from the spec: `TGeoCombiTrans::ReflectX(leftside, rotonly)`,
delegated to the rotation after the clone-before-mutate step; a master-frame
reflection that is not restricted to the rotation also flips the sign of the
translation on that axis, and the reflection classification is toggled. -/
def ReflectX (c : TGeoCombiTrans) (h : RotHeap) (leftside rotonly : Bool) :
    TGeoCombiTrans × RotHeap :=
  mutateRotation
    { c with
      fTranslation :=
        if leftside && !rotonly then { c.fTranslation with x := -c.fTranslation.x }
        else c.fTranslation,
      fBits := SetBitTo c.fBits kGeoReflection (!c.IsReflection) } h
    (fun r => r.ReflectX leftside rotonly)

/-- Modelled from the spec: `TGeoCombiTrans::ReflectY(leftside, rotonly)`, as
`ReflectX` for the y axis. -/
def ReflectY (c : TGeoCombiTrans) (h : RotHeap) (leftside rotonly : Bool) :
    TGeoCombiTrans × RotHeap :=
  mutateRotation
    { c with
      fTranslation :=
        if leftside && !rotonly then { c.fTranslation with y := -c.fTranslation.y }
        else c.fTranslation,
      fBits := SetBitTo c.fBits kGeoReflection (!c.IsReflection) } h
    (fun r => r.ReflectY leftside rotonly)

/-- Modelled from the spec: `TGeoCombiTrans::ReflectZ(leftside, rotonly)`, as
`ReflectX` for the z axis. -/
def ReflectZ (c : TGeoCombiTrans) (h : RotHeap) (leftside rotonly : Bool) :
    TGeoCombiTrans × RotHeap :=
  mutateRotation
    { c with
      fTranslation :=
        if leftside && !rotonly then { c.fTranslation with z := -c.fTranslation.z }
        else c.fTranslation,
      fBits := SetBitTo c.fBits kGeoReflection (!c.IsReflection) } h
    (fun r => r.ReflectZ leftside rotonly)

/-- What clone-before-mutate leaves behind when a transformation that pointed to
the shared object at address `a` of the heap `h` returns `res`: every object of
`h`, the shared one included, is unchanged in the new heap; the transformation
points to another object, which it owns and which holds `r1`, and reports the
matrix of `r1` as its rotation matrix. -/
def ClonedThenMutated (h : RotHeap) (a : Nat) (r1 : TGeoRotation)
    (res : TGeoCombiTrans × RotHeap) : Prop :=
  res.2.read a = h.read a ∧
  (∀ b rb, h.read b = some rb → res.2.read b = some rb) ∧
  (∃ a1, res.1.fRotation = some a1 ∧ a1 ≠ a ∧ res.2.read a1 = some r1) ∧
  res.1.IsOwned = true ∧
  res.1.GetRotationMatrix res.2 = r1.fRotationMatrix

end TGeoCombiTrans

/-! ## The classification predicates of the base class `TGeoMatrix` -/

namespace TGeoMatrix

/-- `IsIdentity() {return !TestBit(kGeoGenTrans);}`. -/
def IsIdentity (fBits : Nat) : Bool := !TestBit fBits kGeoGenTrans

/-- `IsTranslation() {return TestBit(kGeoTranslation);}`. -/
def IsTranslation (fBits : Nat) : Bool := TestBit fBits kGeoTranslation

/-- `IsRotation() {return TestBit(kGeoRotation);}`. -/
def IsRotation (fBits : Nat) : Bool := TestBit fBits kGeoRotation

/-- `IsReflection() {return TestBit(kGeoReflection);}`. -/
def IsReflection (fBits : Nat) : Bool := TestBit fBits kGeoReflection

/-- `IsScale() {return TestBit(kGeoScale);}`. -/
def IsScale (fBits : Nat) : Bool := TestBit fBits kGeoScale

/-- `IsShared() {return TestBit(kGeoShared);}`. -/
def IsShared (fBits : Nat) : Bool := TestBit fBits kGeoShared

/-- `IsOwned() {return TestBit(kGeoMatrixOwned);}`. -/
def IsOwned (fBits : Nat) : Bool := TestBit fBits kGeoMatrixOwned

/-- `IsCombi() {return (TestBit(kGeoTranslation) && TestBit(kGeoRotation));}`. -/
def IsCombi (fBits : Nat) : Bool :=
  TestBit fBits kGeoTranslation && TestBit fBits kGeoRotation

/-- `IsGeneral() {return (TestBit(kGeoTranslation) && TestBit(kGeoRotation)
&& TestBit(kGeoScale));}`. -/
def IsGeneral (fBits : Nat) : Bool :=
  TestBit fBits kGeoTranslation && TestBit fBits kGeoRotation && TestBit fBits kGeoScale

/-- `IsRegistered() {return TestBit(kGeoRegistered);}`. -/
def IsRegistered (fBits : Nat) : Bool := TestBit fBits kGeoRegistered

/-- `SetShared(Bool_t flag=kTRUE) {SetBit(kGeoShared, flag);}`: the new status
word. -/
def SetShared (fBits : Nat) (flag : Bool) : Nat := SetBitTo fBits kGeoShared flag

end TGeoMatrix

/-! ## Point, vector and "bomb" mappings of `TGeoRotation` and `TGeoScale` -/

namespace TGeoRotation

/-- Modelled from the spec: the body of `TGeoRotation::LocalToMaster` is
missing from the sources; `localToMaster(v) = R·v`. -/
def LocalToMaster (r : TGeoRotation) (loc : Vec3) : Vec3 := r.fRotationMatrix.mulVec loc

/-- Modelled from the spec: the body of `TGeoRotation::MasterToLocal` is
missing from the sources; `masterToLocal(v) = Rᵗ·v`. -/
def MasterToLocal (r : TGeoRotation) (master : Vec3) : Vec3 :=
  r.fRotationMatrix.transpose.mulVec master

/-- `LocalToMasterVect(local, master) {TGeoRotation::LocalToMaster(local, master);}`. -/
def LocalToMasterVect (r : TGeoRotation) (loc : Vec3) : Vec3 := LocalToMaster r loc

/-- `LocalToMasterBomb(local, master) {TGeoRotation::LocalToMaster(local, master);}`. -/
def LocalToMasterBomb (r : TGeoRotation) (loc : Vec3) : Vec3 := LocalToMaster r loc

/-- `MasterToLocalVect(master, local) {TGeoRotation::MasterToLocal(master, local);}`. -/
def MasterToLocalVect (r : TGeoRotation) (master : Vec3) : Vec3 := MasterToLocal r master

/-- `MasterToLocalBomb(master, local) {TGeoRotation::MasterToLocal(master, local);}`. -/
def MasterToLocalBomb (r : TGeoRotation) (master : Vec3) : Vec3 := MasterToLocal r master

end TGeoRotation

namespace TGeoScale

/-- Modelled from the spec: the body of `TGeoScale::LocalToMaster(local,
master)` is missing from the sources; `localToMaster(v) = (sx·vx, sy·vy, sz·vz)`. -/
def LocalToMaster (s : TGeoScale) (loc : Vec3) : Vec3 := s.fScale.hmul loc

/-- Modelled from the spec: the body of `TGeoScale::MasterToLocal(master,
local)` is missing from the sources; `masterToLocal(v) = (vx/sx, vy/sy, vz/sz)`. -/
def MasterToLocal (s : TGeoScale) (master : Vec3) : Vec3 := master.hdiv s.fScale

/-- `LocalToMasterVect(local, master) {TGeoScale::LocalToMaster(local, master);}`. -/
def LocalToMasterVect (s : TGeoScale) (loc : Vec3) : Vec3 := LocalToMaster s loc

/-- `MasterToLocalVect(master, local) {TGeoScale::MasterToLocal(master, local);}`. -/
def MasterToLocalVect (s : TGeoScale) (master : Vec3) : Vec3 := MasterToLocal s master

end TGeoScale

end TGeo

/-! ## The helpers of `testRooFuncWrapper.cxx` -/

namespace RooFuncWrapperTest

/-- The arithmetic of `double` that `randomizeParameters` uses.  Floating-point
arithmetic belongs to the machine, not to the sources: the type of the doubles
and the operations on it are parameters, so that what is proved of the helpers
holds for binary64 with its rounding, infinities and NaN as it does for exact
arithmetic.  `gt a b` is `a > b`; `lit q` is the double a literal of value `q`
denotes. -/
structure DoubleArith (D : Type) where
  add : D → D → D
  sub : D → D → D
  mul : D → D → D
  gt : D → D → Bool
  lit : ℚ → D

/-- The arithmetic of `double` that `getNumDerivative` uses: that of
`DoubleArith` and the division. -/
structure DoubleField (D : Type) extends DoubleArith D where
  div : D → D → D

/-- The member functions of `RooRealVar` and `RooAbsRealLValue` that the
helpers call.  The classes are not part of the sources: their member functions
are parameters, acting on the state `σ` of the object. -/
structure RealLValueOps (D σ : Type) where
  getVal : σ → D
  getMin : σ → D
  getMax : σ → D
  inRange : σ → D → Bool
  setVal : σ → D → σ

/-- The two `std::runtime_error`s that `getNumDerivative` throws. -/
inductive DerivError where
  | positiveVariationOutsideOfRange
  | negativeVariationOutsideOfRange
deriving DecidableEq

/-- The function `getNumDerivative(pdf, var, normSet, eps)`.  `var` is passed
by reference: the result pairs what the call returns or throws with the state
of `var` when the call ends.  `pdf` is `pdf.getVal(normSet)` as a function of
the state of `var`. -/
def getNumDerivative {D σ : Type} (ar : DoubleField D) (ops : RealLValueOps D σ)
    (pdf : σ → D) (var : σ) (eps : D) : Except DerivError D × σ :=
  let orig := ops.getVal var
  if !ops.inRange var (ar.add orig eps) then
    (Except.error DerivError.positiveVariationOutsideOfRange, var)
  else if !ops.inRange var (ar.sub orig eps) then
    (Except.error DerivError.negativeVariationOutsideOfRange, var)
  else
    let var1 := ops.setVal var (ar.add orig eps)
    let plus := pdf var1
    let var2 := ops.setVal var1 (ar.sub orig eps)
    let minus := pdf var2
    let var3 := ops.setVal var2 orig
    (Except.ok (ar.div (ar.sub plus minus) (ar.mul (ar.lit 2) eps)), var3)

/-- The value of the local `lowerBound = -0.1` of `randomizeParameters`. -/
def lowerBound : ℚ := -1 / 10

/-- The value of the local `upperBound = 0.1` of `randomizeParameters`. -/
def upperBound : ℚ := 1 / 10

/-- An element of the `RooArgSet`: either an object for which
`dynamic_cast<RooAbsRealLValue *>` succeeds, or any other object. -/
inductive Arg (σ τ : Type) where
  | realLValue (par : σ)
  | other (obj : τ)

/-- The body of the loop of `randomizeParameters` for one element, `mul` being
the number already drawn for it: an element that is not a real lvalue is
skipped (`continue`); otherwise
`val = val + mul * (mul > 0 ? (getMax() - val) : (val - getMin()))` and
`setVal(val)`. -/
def randomizeStep {D σ τ : Type} (ar : DoubleArith D) (ops : RealLValueOps D σ) (mul : D) :
    Arg σ τ → Arg σ τ
  | Arg.other obj => Arg.other obj
  | Arg.realLValue par =>
    let val := ops.getVal par
    let val1 := ar.add val
      (ar.mul mul (if ar.gt mul (ar.lit 0) then ar.sub (ops.getMax par) val
        else ar.sub val (ops.getMin par)))
    Arg.realLValue (ops.setVal par val1)

/-- The loop of `randomizeParameters` from the `k`-th draw on: one number is
drawn for every element, real lvalue or not.  `draw k` is the value of the
`k`-th call of `unif(re)`; the random engine is not part of the sources. -/
def randomizeFrom {D σ τ : Type} (ar : DoubleArith D) (ops : RealLValueOps D σ)
    (draw : Nat → D) : Nat → List (Arg σ τ) → List (Arg σ τ)
  | _, [] => []
  | k, p :: ps => randomizeStep ar ops (draw k) p :: randomizeFrom ar ops draw (k + 1) ps

/-- The function `randomizeParameters(parameters)`: the elements of the set
after the call. -/
def randomizeParameters {D σ τ : Type} (ar : DoubleArith D) (ops : RealLValueOps D σ)
    (draw : Nat → D) (parameters : List (Arg σ τ)) : List (Arg σ τ) :=
  randomizeFrom ar ops draw 0 parameters

/-- Exact arithmetic on the rational numbers, one instance of the arithmetic
parameter: no rounding, no overflow. -/
def exactArith : DoubleField ℚ where
  add := fun a b => a + b
  sub := fun a b => a - b
  mul := fun a b => a * b
  gt := fun a b => decide (a > b)
  lit := fun q => q
  div := fun a b => a / b

/-- The values of a binary64 double, rounding left aside: a finite number, one
of the two infinities, or NaN. -/
inductive XDouble where
  | fin (q : ℚ)
  | posInf
  | negInf
  | nan
deriving DecidableEq

namespace XDouble

/-- The magnitude from which the exact result of an operation rounds to an
infinity in binary64 (rounding to nearest): half an ulp above the largest
finite double `2^1024 - 2^971`. -/
def overflowThreshold : ℚ := 2 ^ 1024 - 2 ^ 970

/-- The double for the exact result `q` of an operation on finite operands: a
result of magnitude `overflowThreshold` or more overflows to the infinity of
its sign, as in binary64; a smaller one is kept as it is (rounding is not
modelled). -/
def ofExact (q : ℚ) : XDouble :=
  if overflowThreshold ≤ q then posInf
  else if q ≤ -overflowThreshold then negInf
  else fin q

/-- Unary minus. -/
def neg : XDouble → XDouble
  | fin a => fin (-a)
  | posInf => negInf
  | negInf => posInf
  | nan => nan

/-- Sum of two doubles: an infinity absorbs a finite operand, infinities of
opposite signs and NaN give NaN. -/
def add : XDouble → XDouble → XDouble
  | fin a, fin b => ofExact (a + b)
  | fin _, posInf => posInf
  | fin _, negInf => negInf
  | posInf, fin _ => posInf
  | posInf, posInf => posInf
  | negInf, fin _ => negInf
  | negInf, negInf => negInf
  | _, _ => nan

/-- Difference of two doubles. -/
def sub (a b : XDouble) : XDouble := add a (neg b)

/-- The product of the finite number `a` and `+inf`: the infinity of the sign
of `a`, NaN when `a` is zero. -/
def signedInf (a : ℚ) : XDouble :=
  if a = 0 then nan else if 0 < a then posInf else negInf

/-- Product of two doubles. -/
def mul : XDouble → XDouble → XDouble
  | fin a, fin b => ofExact (a * b)
  | fin a, posInf => signedInf a
  | fin a, negInf => signedInf (-a)
  | posInf, fin b => signedInf b
  | negInf, fin b => signedInf (-b)
  | posInf, posInf => posInf
  | negInf, negInf => posInf
  | posInf, negInf => negInf
  | negInf, posInf => negInf
  | _, _ => nan

/-- The comparison `a <= b`: false as soon as an operand is NaN. -/
def le : XDouble → XDouble → Bool
  | fin a, fin b => decide (a ≤ b)
  | fin _, posInf => true
  | negInf, fin _ => true
  | negInf, negInf => true
  | negInf, posInf => true
  | posInf, posInf => true
  | _, _ => false

/-- The comparison `a > b`: false as soon as an operand is NaN. -/
def gt (a b : XDouble) : Bool := !le a b && (a != nan) && (b != nan)

/-- The arithmetic of `XDouble`, a second instance of the arithmetic
parameter: it overflows as binary64 does and does not round. -/
def arith : DoubleArith XDouble where
  add := add
  sub := sub
  mul := mul
  gt := gt
  lit := fin

end XDouble

/-! ### The test `GaussianNormalizedHardcoded`

The two functions the test compares are functions of real numbers here: the
exponential, the square root and the integral that normalises the reference
have no exact counterpart on the rationals. -/

/-- The body of the hard-coded function `myGauss1` of the test, with
`params = {x, mu, sigma}`:
`const double arg = params[0] - params[1]; const double sig = params[2];
double out = std::exp(-0.5 * arg * arg / (sig * sig));
return 1. / (std::sqrt(TMath::TwoPi()) * sig) * out;`. -/
noncomputable def myGauss1 (x mu sigma : ℝ) : ℝ :=
  let arg := x - mu
  let sig := sigma
  let out := Real.exp (-0.5 * arg * arg / (sig * sig))
  1 / (Real.sqrt (2 * Real.pi) * sig) * out

/-- Modelled from the spec: the class behind `Gaussian::gauss(x, mu, sigma)` is
not part of the sources.  The unnormalised value of the reference pdf, the
Gaussian kernel `exp(-(x - mu)² / (2·sigma²))`. -/
noncomputable def gaussKernel (x mu sigma : ℝ) : ℝ :=
  Real.exp (-0.5 * (x - mu) ^ 2 / sigma ^ 2)

/-- Modelled from the spec: `gauss.getVal(normSet)` with `normSet = {x}`, the
observable `x` ranging over `(-inf, +inf)`: "the reference Gaussian pdf in x
normalised over the whole real line", the kernel divided by its integral over
`x`. -/
noncomputable def gaussNormalized (x mu sigma : ℝ) : ℝ :=
  gaussKernel x mu sigma / ∫ t : ℝ, gaussKernel t mu sigma

end RooFuncWrapperTest

namespace TGeo

/-! ## Bit lemmas -/

theorem testBit_setBit_self (b n : Nat) : TestBit (SetBit b (BIT n)) (BIT n) = true := by
  unfold TestBit SetBit BIT
  have h : (b ||| 2 ^ n) &&& 2 ^ n = 2 ^ n := by
    apply Nat.eq_of_testBit_eq
    intro i
    simp only [Nat.testBit_and, Nat.testBit_or, Nat.testBit_two_pow]
    by_cases hi : n = i <;> simp [hi]
  rw [h]
  simp

theorem testBit_setBit_other (b n k : Nat) (hnk : n ≠ k) :
    TestBit (SetBit b (BIT n)) (BIT k) = TestBit b (BIT k) := by
  unfold TestBit SetBit BIT
  have h : (b ||| 2 ^ n) &&& 2 ^ k = b &&& 2 ^ k := by
    apply Nat.eq_of_testBit_eq
    intro i
    simp only [Nat.testBit_and, Nat.testBit_or, Nat.testBit_two_pow]
    by_cases hi : k = i
    · subst hi
      simp [hnk]
    · simp [hi]
  rw [h]

theorem testBit_resetBit_self (b f : Nat) : TestBit (ResetBit b f) f = false := by
  unfold TestBit ResetBit
  have h : (b ^^^ (b &&& f)) &&& f = 0 := by
    apply Nat.eq_of_testBit_eq
    intro i
    simp only [Nat.testBit_and, Nat.testBit_xor, Nat.zero_testBit]
    cases b.testBit i <;> cases f.testBit i <;> rfl
  rw [h]
  rfl

theorem testBit_setBitTo_self (b n : Nat) (v : Bool) :
    TestBit (SetBitTo b (BIT n) v) (BIT n) = v := by
  cases v
  · simpa [SetBitTo] using testBit_resetBit_self b (BIT n)
  · simpa [SetBitTo] using testBit_setBit_self b n

/-! ## `TGeoHMatrix` setters and the classification flags -/

/-- Setting the translation bit on a word establishes the cover property for
any translation and keeps it for the untouched rotation and scale. -/
theorem flagsCover_of_translationBit (h : TGeoHMatrix) (hc : h.FlagsCover) (t : Vec3) :
    TGeoHMatrix.FlagsCover
      { h with fBits := SetBit h.fBits kGeoTranslation, fTranslation := t } := by
  obtain ⟨_, hr, hs⟩ := hc
  refine ⟨fun _ => testBit_setBit_self h.fBits 17, fun hne => ?_, fun hne => ?_⟩
  · have := hr hne
    simpa [TGeoHMatrix.IsRotation, kGeoRotation, kGeoTranslation,
      testBit_setBit_other h.fBits 17 18 (by decide)] using this
  · have := hs hne
    simpa [TGeoHMatrix.IsScale, kGeoScale, kGeoTranslation,
      testBit_setBit_other h.fBits 17 19 (by decide)] using this

/-- C7 (claim as stated fails): `TGeoHMatrix::SetRotation` is handed the
matrix `2·I`, which is not orthonormal and far outside the tolerance of the
orthonormality test; the matrix is stored
unchanged and classified as a rotation, and the function has no status to
return. -/
theorem C7_setRotation_accepts_non_orthonormal :
    ¬ Mat3.IsOrthonormal ⟨2, 0, 0, 0, 2, 0, 0, 0, 2⟩ ∧
    TGeoRotation.IsValid ⟨0, ⟨2, 0, 0, 0, 2, 0, 0, 0, 2⟩⟩ = false ∧
    (TGeoHMatrix.SetRotation ⟨0, kNullVector, kIdentityMatrix, kUnitScale⟩
        ⟨2, 0, 0, 0, 2, 0, 0, 0, 2⟩).fRotationMatrix = ⟨2, 0, 0, 0, 2, 0, 0, 0, 2⟩ ∧
    (TGeoHMatrix.SetRotation ⟨0, kNullVector, kIdentityMatrix, kUnitScale⟩
        ⟨2, 0, 0, 0, 2, 0, 0, 0, 2⟩).IsRotation = true := by
  refine ⟨?_, ?_, rfl, ?_⟩
  · intro h
    have := congrArg Mat3.m00 h
    norm_num [Mat3.transpose, Mat3.mul, kIdentityMatrix] at this
  · simp only [TGeoRotation.IsValid, Mat3.transpose, Mat3.mul, kTolerance]
    norm_num [abs_le]
  · exact testBit_setBit_self 0 18

/-- C7 (amended): `TGeoHMatrix::SetRotation` performs no validation.  For
every state and every nine values, orthonormal or not, the values are stored
unchanged, the has-rotation flag is set, and translation and scale are left
as they were. -/
theorem C7_setRotation_stores_any_matrix (h : TGeoHMatrix) (m : Mat3) :
    (h.SetRotation m).fRotationMatrix = m ∧
    (h.SetRotation m).IsRotation = true ∧
    (h.SetRotation m).fTranslation = h.fTranslation ∧
    (h.SetRotation m).fScale = h.fScale :=
  ⟨rfl, testBit_setBit_self h.fBits 18, rfl, rfl⟩

/-- C8 (claim as stated fails): the homogeneous matrix with no flag, zero
translation, identity rotation and unit scale has flags agreeing with its
content; after `SetDx(0)` the translation is still zero but the
has-translation flag is set.  The general transformation with translation
`(1,0,0)`, a quarter turn about the z axis and unit scale, flagged as
translation and rotation, has flags agreeing with its content; after
`SetScale` with `(2,2,2)` its scale is `(2,2,2)` and the has-scale flag is
still clear, so the flags do not even cover the content. -/
theorem C8_setters_break_agreement :
    TGeoHMatrix.FlagsAgree ⟨0, kNullVector, kIdentityMatrix, kUnitScale⟩ ∧
    ¬ TGeoHMatrix.FlagsAgree
        (TGeoHMatrix.SetDx ⟨0, kNullVector, kIdentityMatrix, kUnitScale⟩ 0) ∧
    TGeoGenTrans.FlagsAgree ⟨kGeoCombiTrans, ⟨1, 0, 0⟩, some 0, kUnitScale⟩
        ⟨0, -1, 0, 1, 0, 0, 0, 0, 1⟩ ∧
    (TGeoGenTrans.SetScale ⟨kGeoCombiTrans, ⟨1, 0, 0⟩, some 0, kUnitScale⟩
        ⟨2, 2, 2⟩).fScale = ⟨2, 2, 2⟩ ∧
    (TGeoGenTrans.SetScale ⟨kGeoCombiTrans, ⟨1, 0, 0⟩, some 0, kUnitScale⟩
        ⟨2, 2, 2⟩).IsScale = false ∧
    ¬ TGeoGenTrans.FlagsCover
        (TGeoGenTrans.SetScale ⟨kGeoCombiTrans, ⟨1, 0, 0⟩, some 0, kUnitScale⟩ ⟨2, 2, 2⟩)
        ⟨0, -1, 0, 1, 0, 0, 0, 0, 1⟩ ∧
    ¬ TGeoGenTrans.FlagsAgree
        (TGeoGenTrans.SetScale ⟨kGeoCombiTrans, ⟨1, 0, 0⟩, some 0, kUnitScale⟩ ⟨2, 2, 2⟩)
        ⟨0, -1, 0, 1, 0, 0, 0, 0, 1⟩ := by
  have hs : (TGeoGenTrans.SetScale ⟨kGeoCombiTrans, ⟨1, 0, 0⟩, some 0, kUnitScale⟩
      ⟨2, 2, 2⟩).IsScale = false := by decide
  refine ⟨?_, ?_, ?_, rfl, hs, ?_, ?_⟩
  · refine ⟨?_, ?_, ?_⟩ <;> decide
  · intro h
    have h1 := h.1.mp (testBit_setBit_self 0 17)
    exact h1 rfl
  · refine ⟨?_, ?_, ?_⟩ <;> decide
  · intro h
    have h1 := h.2.2 (by decide)
    rw [hs] at h1
    exact Bool.false_ne_true h1
  · intro h
    have h1 := h.2.2.mpr (by decide)
    rw [hs] at h1
    exact Bool.false_ne_true h1

/-- C8 (amended): the setters of `TGeoHMatrix` keep the classification a cover
of the content.  If every non-neutral component has its flag set, the same
holds after `SetDx`, `SetDy`, `SetDz`, `SetTranslation`, `SetRotation` and
`SetScale`, each of which sets its own flag whatever the argument and stores
the argument. -/
theorem C8_setters_keep_flags_covering (h : TGeoHMatrix) (hc : h.FlagsCover)
    (d : ℚ) (v s : Vec3) (m : Mat3) :
    (h.SetDx d).FlagsCover ∧ (h.SetDy d).FlagsCover ∧ (h.SetDz d).FlagsCover ∧
    (h.SetTranslation v).FlagsCover ∧ (h.SetRotation m).FlagsCover ∧
    (h.SetScale s).FlagsCover ∧
    (h.SetDx d).IsTranslation = true ∧ (h.SetDy d).IsTranslation = true ∧
    (h.SetDz d).IsTranslation = true ∧ (h.SetTranslation v).IsTranslation = true ∧
    (h.SetRotation m).IsRotation = true ∧ (h.SetScale s).IsScale = true ∧
    (h.SetDx d).fTranslation = ⟨d, h.fTranslation.y, h.fTranslation.z⟩ ∧
    (h.SetDy d).fTranslation = ⟨h.fTranslation.x, d, h.fTranslation.z⟩ ∧
    (h.SetDz d).fTranslation = ⟨h.fTranslation.x, h.fTranslation.y, d⟩ ∧
    (h.SetTranslation v).fTranslation = v ∧ (h.SetRotation m).fRotationMatrix = m ∧
    (h.SetScale s).fScale = s := by
  have hT := flagsCover_of_translationBit h hc
  refine ⟨hT _, hT _, hT _, hT _, ?_, ?_, testBit_setBit_self h.fBits 17,
    testBit_setBit_self h.fBits 17, testBit_setBit_self h.fBits 17,
    testBit_setBit_self h.fBits 17, testBit_setBit_self h.fBits 18,
    testBit_setBit_self h.fBits 19, rfl, rfl, rfl, rfl, rfl, rfl⟩
  · obtain ⟨ht, _, hs⟩ := hc
    refine ⟨fun hne => ?_, fun _ => testBit_setBit_self h.fBits 18, fun hne => ?_⟩
    · have := ht hne
      simpa [TGeoHMatrix.SetRotation, TGeoHMatrix.IsTranslation, kGeoRotation,
        kGeoTranslation, testBit_setBit_other h.fBits 18 17 (by decide)] using this
    · have := hs hne
      simpa [TGeoHMatrix.SetRotation, TGeoHMatrix.IsScale, kGeoRotation, kGeoScale,
        testBit_setBit_other h.fBits 18 19 (by decide)] using this
  · obtain ⟨ht, hr, _⟩ := hc
    refine ⟨fun hne => ?_, fun hne => ?_, fun _ => testBit_setBit_self h.fBits 19⟩
    · have := ht hne
      simpa [TGeoHMatrix.SetScale, TGeoHMatrix.IsTranslation, kGeoScale,
        kGeoTranslation, testBit_setBit_other h.fBits 19 17 (by decide)] using this
    · have := hr hne
      simpa [TGeoHMatrix.SetScale, TGeoHMatrix.IsRotation, kGeoScale, kGeoRotation,
        testBit_setBit_other h.fBits 19 18 (by decide)] using this

/-- C8 (witness): the amended statement at the homogeneous matrix that holds
the quarter turn about the z axis, flagged as a rotation only, with `SetDx(5)`
and `SetScale(2,2,2)`: before, the translation is zero and its flag clear;
after `SetDx(5)` the translation is `(5,0,0)` and flagged, after
`SetScale(2,2,2)` the scale is `(2,2,2)` and flagged, and the rotation flag is
still set in both. -/
theorem C8_setters_keep_flags_covering_witness :
    TGeoHMatrix.FlagsCover ⟨kGeoRotation, kNullVector, ⟨0, -1, 0, 1, 0, 0, 0, 0, 1⟩,
      kUnitScale⟩ ∧
    TGeoHMatrix.IsTranslation ⟨kGeoRotation, kNullVector, ⟨0, -1, 0, 1, 0, 0, 0, 0, 1⟩,
      kUnitScale⟩ = false ∧
    (TGeoHMatrix.SetDx ⟨kGeoRotation, kNullVector, ⟨0, -1, 0, 1, 0, 0, 0, 0, 1⟩,
      kUnitScale⟩ 5).fTranslation ≠ kNullVector ∧
    (TGeoHMatrix.SetDx ⟨kGeoRotation, kNullVector, ⟨0, -1, 0, 1, 0, 0, 0, 0, 1⟩,
      kUnitScale⟩ 5).fRotationMatrix ≠ kIdentityMatrix ∧
    (TGeoHMatrix.SetDx ⟨kGeoRotation, kNullVector, ⟨0, -1, 0, 1, 0, 0, 0, 0, 1⟩,
      kUnitScale⟩ 5).FlagsCover ∧
    (TGeoHMatrix.SetScale ⟨kGeoRotation, kNullVector, ⟨0, -1, 0, 1, 0, 0, 0, 0, 1⟩,
      kUnitScale⟩ ⟨2, 2, 2⟩).fScale ≠ kUnitScale ∧
    (TGeoHMatrix.SetScale ⟨kGeoRotation, kNullVector, ⟨0, -1, 0, 1, 0, 0, 0, 0, 1⟩,
      kUnitScale⟩ ⟨2, 2, 2⟩).FlagsCover :=
  have hc : TGeoHMatrix.FlagsCover ⟨kGeoRotation, kNullVector,
      ⟨0, -1, 0, 1, 0, 0, 0, 0, 1⟩, kUnitScale⟩ := by
    refine ⟨?_, ?_, ?_⟩ <;> decide
  ⟨hc, by decide, by decide, by decide,
   (C8_setters_keep_flags_covering _ hc 5 ⟨1, 2, 3⟩ ⟨2, 2, 2⟩
      ⟨2, 0, 0, 0, 2, 0, 0, 0, 2⟩).1,
   by decide,
   (C8_setters_keep_flags_covering _ hc 5 ⟨1, 2, 3⟩ ⟨2, 2, 2⟩
      ⟨2, 0, 0, 0, 2, 0, 0, 0, 2⟩).2.2.2.2.2.1⟩

/-! ## `TGeoScale`: validation, reflection and the product of the factors -/

theorem setScale_eq_error_iff (s : TGeoScale) (sx sy sz : ℚ) :
    s.SetScale sx sy sz = Except.error GeoError.invalidParameter ↔
      (sx = 0 ∨ sy = 0 ∨ sz = 0) := by
  unfold TGeoScale.SetScale
  by_cases h : sx = 0 ∨ sy = 0 ∨ sz = 0
  · simp [h]
  · rw [if_neg h]
    simp [h]

theorem setScale_ok (s s1 : TGeoScale) (sx sy sz : ℚ)
    (h : s.SetScale sx sy sz = Except.ok s1) :
    ¬ (sx = 0 ∨ sy = 0 ∨ sz = 0) ∧
    s1 = { fScale := ⟨sx, sy, sz⟩,
           fBits := SetBitTo s.fBits kGeoReflection (decide (sx * sy * sz < 0)) } := by
  unfold TGeoScale.SetScale at h
  by_cases h0 : sx = 0 ∨ sy = 0 ∨ sz = 0
  · rw [if_pos h0] at h
    cases h
  · rw [if_neg h0] at h
    injection h with h
    exact ⟨h0, h.symm⟩

/-- After a successful `SetScale` the factors are non-zero and the reflection
flag is set exactly when their product is negative. -/
theorem setScale_ok_invariant (s s1 : TGeoScale) (sx sy sz : ℚ)
    (h : s.SetScale sx sy sz = Except.ok s1) :
    s1.fScale.NonZero ∧ (s1.IsReflection = true ↔ s1.fScale.prod < 0) := by
  obtain ⟨h0, rfl⟩ := setScale_ok s s1 sx sy sz h
  push_neg at h0
  refine ⟨h0, ?_⟩
  simp [TGeoScale.IsReflection, kGeoReflection, testBit_setBitTo_self, Vec3.prod]

theorem reflect_invariant (b : Nat) (v w : Vec3) (hw : w.NonZero) (hp : w.prod = -v.prod)
    (hv : TestBit b kGeoReflection = true ↔ v.prod < 0) (hnz : v.NonZero) :
    w.NonZero ∧
    (TestBit (SetBitTo b kGeoReflection (!TestBit b kGeoReflection)) kGeoReflection = true
      ↔ w.prod < 0) := by
  refine ⟨hw, ?_⟩
  have hne : v.prod ≠ 0 := by
    obtain ⟨h1, h2, h3⟩ := hnz
    exact mul_ne_zero (mul_ne_zero h1 h2) h3
  rw [show kGeoReflection = BIT 20 from rfl] at hv ⊢
  rw [testBit_setBitTo_self, hp]
  cases hb : TestBit b (BIT 20)
  · rw [hb] at hv
    have : ¬ v.prod < 0 := fun h => by simpa using hv.mpr h
    have hpos : 0 < v.prod := lt_of_le_of_ne (not_lt.mp this) (Ne.symm hne)
    simp [hpos]
  · rw [hb] at hv
    have hneg : v.prod < 0 := hv.mp rfl
    simp [hneg.le]

/-- C6: building a scale or setting its factors with any factor exactly zero
fails with the invalid-parameter condition, and only then; a scale that was
built or set successfully holds the three factors given, none of them zero. -/
theorem C6_zero_scale_is_invalid_parameter (s : TGeoScale) (sx sy sz : ℚ) :
    (TGeoScale.construct sx sy sz = Except.error GeoError.invalidParameter ↔
      (sx = 0 ∨ sy = 0 ∨ sz = 0)) ∧
    (s.SetScale sx sy sz = Except.error GeoError.invalidParameter ↔
      (sx = 0 ∨ sy = 0 ∨ sz = 0)) ∧
    (∀ s1 : TGeoScale,
      (TGeoScale.construct sx sy sz = Except.ok s1 ∨ s.SetScale sx sy sz = Except.ok s1) →
        s1.fScale = ⟨sx, sy, sz⟩ ∧ s1.fScale.NonZero) := by
  refine ⟨setScale_eq_error_iff _ sx sy sz, setScale_eq_error_iff s sx sy sz, ?_⟩
  intro s1 h
  have key : ∀ s0 : TGeoScale, s0.SetScale sx sy sz = Except.ok s1 →
      s1.fScale = ⟨sx, sy, sz⟩ ∧ s1.fScale.NonZero := by
    intro s0 h0
    obtain ⟨hz, rfl⟩ := setScale_ok s0 s1 sx sy sz h0
    push_neg at hz
    exact ⟨rfl, hz⟩
  rcases h with h | h
  · exact key _ h
  · exact key _ h

/-- C6 (witness): `Scale(0,1,1)` and `SetScale(0,1,1)` on the scale `(2,2,2)`
both fail with invalid-parameter. -/
theorem C6_zero_scale_is_invalid_parameter_witness :
    TGeoScale.construct 0 1 1 = Except.error GeoError.invalidParameter ∧
    TGeoScale.SetScale ⟨kGeoScale, ⟨2, 2, 2⟩⟩ 0 1 1 =
      Except.error GeoError.invalidParameter :=
  ⟨(C6_zero_scale_is_invalid_parameter ⟨kGeoScale, ⟨2, 2, 2⟩⟩ 0 1 1).1.mpr (Or.inl rfl),
   (C6_zero_scale_is_invalid_parameter ⟨kGeoScale, ⟨2, 2, 2⟩⟩ 0 1 1).2.1.mpr (Or.inl rfl)⟩

theorem Mat3.toMatrix_mul (a b : Mat3) : (a.mul b).toMatrix = a.toMatrix * b.toMatrix := by
  ext i j
  fin_cases i <;> fin_cases j <;>
    simp [Mat3.toMatrix, Mat3.mul, Matrix.mul_apply, Fin.sum_univ_three]

theorem Mat3.toMatrix_identity : kIdentityMatrix.toMatrix = 1 := by
  rw [Matrix.one_fin_three]
  rfl

theorem Mat3.toMatrix_injective (a b : Mat3) (h : a.toMatrix = b.toMatrix) : a = b := by
  have e := fun i j => congrFun (congrFun h i) j
  have h00 := e 0 0
  have h01 := e 0 1
  have h02 := e 0 2
  have h10 := e 1 0
  have h11 := e 1 1
  have h12 := e 1 2
  have h20 := e 2 0
  have h21 := e 2 1
  have h22 := e 2 2
  simp [Mat3.toMatrix] at h00 h01 h02 h10 h11 h12 h20 h21 h22
  ext <;> assumption

/-- Orthonormal columns give orthonormal rows: `aᵗ·a = I` implies `a·aᵗ = I`. -/
theorem Mat3.mul_transpose_of_isOrthonormal (a : Mat3) (h : a.IsOrthonormal) :
    a.mul a.transpose = kIdentityMatrix := by
  apply Mat3.toMatrix_injective
  rw [Mat3.toMatrix_mul, Mat3.toMatrix_identity]
  have h1 : a.transpose.toMatrix * a.toMatrix = 1 := by
    rw [← Mat3.toMatrix_mul, ← Mat3.toMatrix_identity]
    exact congrArg Mat3.toMatrix h
  exact Matrix.mul_eq_one_comm.mp h1

theorem Mat3.det_mul (a b : Mat3) : (a.mul b).det = a.det * b.det := by
  simp only [Mat3.det, Mat3.mul]
  ring

theorem Mat3.mul_identity (a : Mat3) : a.mul kIdentityMatrix = a := by
  ext <;> simp [Mat3.mul, kIdentityMatrix]

theorem Mat3.mulVec_mulVec (a b : Mat3) (v : Vec3) :
    a.mulVec (b.mulVec v) = (a.mul b).mulVec v := by
  ext <;> simp only [Mat3.mul, Mat3.mulVec] <;> ring

theorem Mat3.identity_mulVec (v : Vec3) : kIdentityMatrix.mulVec v = v := by
  ext <;> simp [Mat3.mulVec, kIdentityMatrix]

theorem Mat3.mulVec_neg (m : Mat3) (v : Vec3) : m.mulVec v.neg = (m.mulVec v).neg := by
  ext <;> simp only [Mat3.mulVec, Vec3.neg] <;> ring

theorem Vec3.add_neg_self (v : Vec3) : v.add v.neg = kNullVector := by
  ext <;> simp [Vec3.add, Vec3.neg, kNullVector]

theorem Vec3.add_null (v : Vec3) : v.add kNullVector = v := by
  ext <;> simp [Vec3.add, kNullVector]

theorem Vec3.null_add (v : Vec3) : kNullVector.add v = v := by
  ext <;> simp [Vec3.add, kNullVector]

/-! ## Products of transformations -/

/-- The value computed by `operator*` has the class the header declares. -/
theorem Transform.mul_kind (A B : Transform) :
    (A.mul B).map Transform.kind = Transform.operatorMulKind A.kind B.kind := by
  cases A <;> cases B <;> rfl

/-- C3: for two combined transformations `L = (T_left, R_left)` and
`Rt = (T_right, R_right)`, both `L * Rt` and `L.Multiply(Rt)` are the combined
transformation with translation `T_left + R_left·T_right` and rotation the
matrix product `R_left·R_right`. -/
theorem C3_combi_product_is_rigid_motion_law (tl tr : Vec3) (rl rr : Mat3) :
    (Transform.combi tl rl).mul (Transform.combi tr rr) =
      some (Transform.combi (tl.add (rl.mulVec tr)) (rl.mul rr)) ∧
    (Transform.combi tl rl).Multiply (Transform.combi tr rr) =
      some (Transform.combi (tl.add (rl.mulVec tr)) (rl.mul rr)) ∧
    (Transform.combi (tl.add (rl.mulVec tr)) (rl.mul rr)).GetTranslation =
      ⟨tl.x + (rl.m00 * tr.x + rl.m01 * tr.y + rl.m02 * tr.z),
       tl.y + (rl.m10 * tr.x + rl.m11 * tr.y + rl.m12 * tr.z),
       tl.z + (rl.m20 * tr.x + rl.m21 * tr.y + rl.m22 * tr.z)⟩ ∧
    (Transform.combi (tl.add (rl.mulVec tr)) (rl.mul rr)).GetRotationMatrix.toMatrix =
      rl.toMatrix * rr.toMatrix :=
  ⟨rfl, rfl, rfl, Mat3.toMatrix_mul rl rr⟩

/-- C4: for a combined transformation `C = (T, R)` with `R` orthonormal, the
inverse has translation `-Rᵗ·T` and rotation `Rᵗ`, and `C * C.Inverse()` has
zero translation and the identity rotation. -/
theorem C4_combi_times_inverse_is_identity (t : Vec3) (r : Mat3) (h : r.IsOrthonormal) :
    (Transform.combi t r).Inverse.GetTranslation = (r.transpose.mulVec t).neg ∧
    (Transform.combi t r).Inverse.GetRotationMatrix = r.transpose ∧
    (Transform.combi t r).mul (Transform.combi t r).Inverse =
      some (Transform.combi kNullVector kIdentityMatrix) := by
  refine ⟨rfl, rfl, ?_⟩
  have hrr := Mat3.mul_transpose_of_isOrthonormal r h
  have hv : r.mulVec (r.transpose.mulVec t) = t := by
    rw [Mat3.mulVec_mulVec, hrr, Mat3.identity_mulVec]
  have hneg : r.mulVec (r.transpose.mulVec t).neg = t.neg := by
    rw [Mat3.mulVec_neg, hv]
  simp only [Transform.Inverse, Transform.mul, Transform.combiMultiply,
    Transform.GetTranslation, Transform.GetRotationMatrix, hrr, hneg, Vec3.add_neg_self]

/-- C4 (witness): the statement at `T = (1,2,3)` and `R` the quarter turn
about the z axis. -/
theorem C4_combi_times_inverse_is_identity_witness :
    (Transform.combi ⟨1, 2, 3⟩ ⟨0, -1, 0, 1, 0, 0, 0, 0, 1⟩).mul
        (Transform.combi ⟨1, 2, 3⟩ ⟨0, -1, 0, 1, 0, 0, 0, 0, 1⟩).Inverse =
      some (Transform.combi kNullVector kIdentityMatrix) :=
  (C4_combi_times_inverse_is_identity ⟨1, 2, 3⟩ ⟨0, -1, 0, 1, 0, 0, 0, 0, 1⟩
    (by norm_num [Mat3.IsOrthonormal, Mat3.mul, Mat3.transpose, kIdentityMatrix])).2.2

/-- C5 (claim as stated fails): for a general left operand and a translation
right operand the header gives `operator*` the result class `TGeoCombiTrans`,
not `TGeoHMatrix`; a value of that class reports the scale `(1,1,1)`, here
although the left operand has scale `(2,2,2)`. -/
theorem C5_gen_times_translation_is_combi :
    Transform.operatorMulKind (Transform.gen kNullVector kIdentityMatrix ⟨2, 2, 2⟩).kind
        (Transform.translation ⟨1, 0, 0⟩).kind = some Kind.combi ∧
    Transform.operatorMulKind (Transform.gen kNullVector kIdentityMatrix ⟨2, 2, 2⟩).kind
        (Transform.translation ⟨1, 0, 0⟩).kind ≠ some Kind.hmatrix ∧
    ((Transform.gen kNullVector kIdentityMatrix ⟨2, 2, 2⟩).mul
        (Transform.translation ⟨1, 0, 0⟩)).map Transform.kind = some Kind.combi ∧
    ((Transform.gen kNullVector kIdentityMatrix ⟨2, 2, 2⟩).mul
        (Transform.translation ⟨1, 0, 0⟩)).map Transform.GetScale = some kUnitScale :=
  ⟨rfl, by decide, rfl, rfl⟩

/-- C5 (amended): for every general transformation `G` and every
transformation `B`, the product `G * B` is of class `TGeoCombiTrans` (the
`operator*` that `TGeoGenTrans` inherits), a class that reports the scale
`(1,1,1)`.  Results of class `TGeoHMatrix` come from a homogeneous left
operand and from a translation, rotation or scale multiplied by an operand of
another class. -/
theorem C5_gen_product_is_combi (G B : Transform) :
    (G.kind = Kind.gen →
      Transform.operatorMulKind G.kind B.kind = some Kind.combi ∧
      (G.mul B).map Transform.kind = some Kind.combi ∧
      (G.mul B).map Transform.GetScale = some kUnitScale) ∧
    (G.kind = Kind.hmatrix → Transform.operatorMulKind G.kind B.kind = some Kind.hmatrix) ∧
    ((G.kind = Kind.translation ∨ G.kind = Kind.rotation ∨ G.kind = Kind.scale) →
      B.kind ≠ G.kind → Transform.operatorMulKind G.kind B.kind = some Kind.hmatrix) := by
  refine ⟨?_, ?_, ?_⟩
  · intro h
    cases G <;> cases B <;>
      simp_all [Transform.kind, Transform.operatorMulKind, Transform.mul,
        Transform.combiMultiply, Transform.GetScale]
  · intro h
    cases G <;> cases B <;> simp_all [Transform.kind, Transform.operatorMulKind]
  · intro h hne
    cases G <;> cases B <;> simp_all [Transform.kind, Transform.operatorMulKind]

/-- C5 (witness): the amended statement at the general transformation with
scale `(2,2,2)` and the translation `(1,0,0)`. -/
theorem C5_gen_product_is_combi_witness :
    ((Transform.gen kNullVector kIdentityMatrix ⟨2, 2, 2⟩).mul
        (Transform.translation ⟨1, 0, 0⟩)).map Transform.kind = some Kind.combi :=
  ((C5_gen_product_is_combi (Transform.gen kNullVector kIdentityMatrix ⟨2, 2, 2⟩)
    (Transform.translation ⟨1, 0, 0⟩)).1 rfl).2.1

/-- C1 (claim as stated fails): the combined transformation with zero
translation and identity rotation times `Scale(2,2,2)` is a combined
transformation that maps `(1,1,1)` to `(1,1,1)`, whereas applying the scale
first and the combined transformation second gives `(2,2,2)`. -/
theorem C1_combi_times_scale_drops_scale :
    (Transform.combi kNullVector kIdentityMatrix).mul (Transform.scale ⟨2, 2, 2⟩) =
      some (Transform.combi kNullVector kIdentityMatrix) ∧
    (Transform.combi kNullVector kIdentityMatrix).LocalToMaster ⟨1, 1, 1⟩ = ⟨1, 1, 1⟩ ∧
    (Transform.combi kNullVector kIdentityMatrix).LocalToMaster
        ((Transform.scale ⟨2, 2, 2⟩).LocalToMaster ⟨1, 1, 1⟩) = ⟨2, 2, 2⟩ := by
  refine ⟨?_, ?_, ?_⟩
  · simp only [Transform.mul, Transform.combiMultiply, Transform.GetTranslation,
      Transform.GetRotationMatrix, Mat3.mul_identity, Mat3.identity_mulVec, Vec3.add_null]
  · simp only [Transform.LocalToMaster, Mat3.identity_mulVec, Vec3.add_null]
  · simp only [Transform.LocalToMaster, Mat3.identity_mulVec]
    ext <;> norm_num [Vec3.add, Vec3.hmul, kNullVector]

theorem Transform.localToMaster_combiMultiply (tl : Vec3) (rl : Mat3) (B : Transform)
    (p : Vec3) (hB : B.GetScale = kUnitScale) :
    (Transform.combiMultiply tl rl B).LocalToMaster p =
      (Transform.combi tl rl).LocalToMaster (B.LocalToMaster p) := by
  cases B <;>
    simp only [Transform.GetScale] at hB <;>
    try subst hB
  all_goals
    simp only [Transform.combiMultiply, Transform.LocalToMaster, Transform.GetTranslation,
      Transform.GetRotationMatrix]
    ext <;>
      simp only [Vec3.add, Vec3.hmul, Mat3.mulVec, Mat3.mul, kNullVector, kIdentityMatrix,
        kUnitScale] <;>
      ring

/-- The homogeneous product maps a point as the right operand followed by the
left operand, whatever the two operands are. -/
theorem Transform.localToMaster_hmatrixMultiply (A B : Transform) (p : Vec3) :
    (Transform.hmatrixMultiply A B).LocalToMaster p =
      A.LocalToMaster (B.LocalToMaster p) := by
  cases A <;> cases B <;>
    simp only [Transform.hmatrixMultiply, Transform.LocalToMaster,
      Transform.GetTranslation, Transform.GetRotationMatrix, Transform.GetScale] <;>
    ext <;>
    simp only [Vec3.add, Vec3.hmul, Mat3.mulVec, Mat3.mul, Mat3.mulDiag, kNullVector,
      kIdentityMatrix, kUnitScale] <;>
    ring

/-- C1 (amended): the product maps a point as its right operand followed by
its left operand, `(A*B).LocalToMaster(p) = A.LocalToMaster(B.LocalToMaster(p))`,
for every left operand `A` that is a translation, a rotation, a scale or a
homogeneous matrix and every `B`, and for a combined or general left operand
when both operands report the scale `(1,1,1)`.  (The identity declares no
product; a product of class `TGeoCombiTrans` cannot carry a scale.) -/
theorem C1_product_maps_as_composition (A B : Transform) (p : Vec3)
    (hA : A.kind ≠ Kind.identity)
    (hs : A.kind = Kind.combi ∨ A.kind = Kind.gen →
      A.GetScale = kUnitScale ∧ B.GetScale = kUnitScale) :
    ∃ C, A.mul B = some C ∧ C.LocalToMaster p = A.LocalToMaster (B.LocalToMaster p) := by
  cases A with
  | identity => exact absurd rfl hA
  | combi t r =>
    exact ⟨_, rfl, Transform.localToMaster_combiMultiply t r B p (hs (Or.inl rfl)).2⟩
  | gen t r s =>
    obtain ⟨h1, h2⟩ := hs (Or.inr rfl)
    simp only [Transform.GetScale] at h1
    subst h1
    refine ⟨_, rfl, ?_⟩
    rw [Transform.localToMaster_combiMultiply t r B p h2]
    simp only [Transform.LocalToMaster]
    congr 2
    ext <;> simp [Vec3.hmul, kUnitScale]
  | hmatrix t r s =>
    exact ⟨_, rfl, Transform.localToMaster_hmatrixMultiply _ B p⟩
  | translation a =>
    cases B
    case translation b =>
      refine ⟨_, rfl, ?_⟩
      simp only [Transform.LocalToMaster]
      ext <;> simp only [Vec3.add] <;> ring
    all_goals
      exact ⟨_, rfl, Transform.localToMaster_hmatrixMultiply _ _ p⟩
  | rotation a =>
    cases B
    case rotation b =>
      refine ⟨_, rfl, ?_⟩
      simp only [Transform.LocalToMaster, Mat3.mulVec_mulVec]
    all_goals
      exact ⟨_, rfl, Transform.localToMaster_hmatrixMultiply _ _ p⟩
  | scale a =>
    cases B
    case scale b =>
      refine ⟨_, rfl, ?_⟩
      simp only [Transform.LocalToMaster]
      ext <;> simp only [Vec3.hmul] <;> ring
    all_goals
      exact ⟨_, rfl, Transform.localToMaster_hmatrixMultiply _ _ p⟩

/-- C1 (witness): the amended statement at `Scale(2,2,2)` times the
translation `(1,2,3)`, at the point `(1,1,1)`. -/
theorem C1_product_maps_as_composition_witness :
    ∃ C, (Transform.scale ⟨2, 2, 2⟩).mul (Transform.translation ⟨1, 2, 3⟩) = some C ∧
      C.LocalToMaster ⟨1, 1, 1⟩ =
        (Transform.scale ⟨2, 2, 2⟩).LocalToMaster
          ((Transform.translation ⟨1, 2, 3⟩).LocalToMaster ⟨1, 1, 1⟩) :=
  C1_product_maps_as_composition (Transform.scale ⟨2, 2, 2⟩)
    (Transform.translation ⟨1, 2, 3⟩) ⟨1, 1, 1⟩ (by decide)
    (by simp [Transform.kind])

/-! ## Inverses -/

theorem Vec3.unit_hmul (v : Vec3) : kUnitScale.hmul v = v := by
  ext <;> simp [Vec3.hmul, kUnitScale]

theorem Mat3.isOrthonormal_rotX (c s : ℚ) (h : c * c + s * s = 1) :
    (Mat3.rotX c s).IsOrthonormal := by
  have h2 : s * s + c * c = 1 := by linarith
  ext <;> simp only [Mat3.rotX, Mat3.mul, Mat3.transpose, kIdentityMatrix] <;> ring_nf <;>
    first | rfl | linarith [h, h2]

theorem Mat3.isOrthonormal_rotY (c s : ℚ) (h : c * c + s * s = 1) :
    (Mat3.rotY c s).IsOrthonormal := by
  have h2 : s * s + c * c = 1 := by linarith
  ext <;> simp only [Mat3.rotY, Mat3.mul, Mat3.transpose, kIdentityMatrix] <;> ring_nf <;>
    first | rfl | linarith [h, h2]

theorem Mat3.isOrthonormal_rotZ (c s : ℚ) (h : c * c + s * s = 1) :
    (Mat3.rotZ c s).IsOrthonormal := by
  have h2 : s * s + c * c = 1 := by linarith
  ext <;> simp only [Mat3.rotZ, Mat3.mul, Mat3.transpose, kIdentityMatrix] <;> ring_nf <;>
    first | rfl | linarith [h, h2]

/-- C14: for every translation with vector `T` and every point `p`,
`LocalToMaster(p) = p + T` and `MasterToLocal(p) = p - T` component by
component, each undoing the other; `Translation(1,2,3)` maps the origin to
`(1,2,3)`. -/
theorem C14_translation_maps_by_adding (t p : Vec3) :
    (Transform.translation t).LocalToMaster p = ⟨p.x + t.x, p.y + t.y, p.z + t.z⟩ ∧
    (Transform.translation t).MasterToLocal p = ⟨p.x - t.x, p.y - t.y, p.z - t.z⟩ ∧
    (Transform.translation t).MasterToLocal ((Transform.translation t).LocalToMaster p) = p ∧
    (Transform.translation ⟨1, 2, 3⟩).LocalToMaster ⟨0, 0, 0⟩ = ⟨1, 2, 3⟩ := by
  refine ⟨rfl, rfl, ?_, ?_⟩
  · ext <;> simp [Transform.LocalToMaster, Transform.MasterToLocal, Vec3.add, Vec3.sub]
  · ext <;> simp [Transform.LocalToMaster, Vec3.add]

/-- C15: for every two translations `A` and `B`, the product `A * B` is the
translation whose vector is the component-wise sum of the two vectors, and
`A * B = B * A`. -/
theorem C15_translation_product_adds (a b : Vec3) :
    (Transform.translation a).mul (Transform.translation b) =
      some (Transform.translation ⟨a.x + b.x, a.y + b.y, a.z + b.z⟩) ∧
    Transform.operatorMulKind Kind.translation Kind.translation = some Kind.translation ∧
    (Transform.translation a).mul (Transform.translation b) =
      (Transform.translation b).mul (Transform.translation a) := by
  refine ⟨rfl, rfl, ?_⟩
  simp only [Transform.mul]
  congr 2
  ext <;> simp only [Vec3.add] <;> ring

/-- C16: for every scale `(sx, sy, sz)` with non-zero factors and every vector
`v`, `LocalToMaster(v) = (sx·vx, sy·vy, sz·vz)`,
`MasterToLocal(v) = (vx/sx, vy/sy, vz/sz)`, the inverse holds the reciprocal
factors, and both `MasterToLocal` and the inverse undo `LocalToMaster`;
`Scale(2,2,2)` maps `(1,1,1)` to `(2,2,2)` and its inverse maps `(2,2,2)` back
to `(1,1,1)`. -/
theorem C16_scale_maps_by_factors (s v : Vec3) (hs : s.NonZero) :
    (Transform.scale s).LocalToMaster v = ⟨s.x * v.x, s.y * v.y, s.z * v.z⟩ ∧
    (Transform.scale s).MasterToLocal v = ⟨v.x / s.x, v.y / s.y, v.z / s.z⟩ ∧
    (Transform.scale s).Inverse.GetScale = ⟨1 / s.x, 1 / s.y, 1 / s.z⟩ ∧
    (Transform.scale s).MasterToLocal ((Transform.scale s).LocalToMaster v) = v ∧
    (Transform.scale s).Inverse.LocalToMaster ((Transform.scale s).LocalToMaster v) = v ∧
    (Transform.scale ⟨2, 2, 2⟩).LocalToMaster ⟨1, 1, 1⟩ = ⟨2, 2, 2⟩ ∧
    (Transform.scale ⟨2, 2, 2⟩).Inverse.LocalToMaster ⟨2, 2, 2⟩ = ⟨1, 1, 1⟩ := by
  obtain ⟨hx, hy, hz⟩ := hs
  refine ⟨rfl, rfl, rfl, ?_, ?_, ?_, ?_⟩
  · ext <;> simp only [Transform.LocalToMaster, Transform.MasterToLocal, Vec3.hmul,
      Vec3.hdiv] <;> field_simp
  · simp only [Transform.LocalToMaster, Transform.Inverse, Mat3.identity_mulVec,
      Vec3.add_null]
    ext <;> simp only [Vec3.hmul, Vec3.recip] <;> field_simp
  · ext <;> norm_num [Transform.LocalToMaster, Vec3.hmul]
  · simp only [Transform.LocalToMaster, Transform.Inverse, Mat3.identity_mulVec,
      Vec3.add_null]
    ext <;> norm_num [Vec3.hmul, Vec3.recip]

/-- C16 (witness): the statement at `Scale(2,2,2)` and the vector `(1,1,1)`. -/
theorem C16_scale_maps_by_factors_witness :
    (Transform.scale ⟨2, 2, 2⟩).Inverse.LocalToMaster
        ((Transform.scale ⟨2, 2, 2⟩).LocalToMaster ⟨1, 1, 1⟩) = ⟨1, 1, 1⟩ :=
  (C16_scale_maps_by_factors ⟨2, 2, 2⟩ ⟨1, 1, 1⟩ (by decide)).2.2.2.2.1

/-- C17: for every scale and every value of `leftside` and `rotonly`,
`ReflectX` (resp. `ReflectY`, `ReflectZ`) negates the x (resp. y, z) factor,
leaves the other two factors unchanged, and makes `IsReflection()` the
negation of what it was. -/
theorem C17_scale_reflect_negates_one_factor (s : TGeoScale) (leftside rotonly : Bool) :
    (s.ReflectX leftside rotonly).fScale = ⟨-s.fScale.x, s.fScale.y, s.fScale.z⟩ ∧
    (s.ReflectX leftside rotonly).IsReflection = !s.IsReflection ∧
    (s.ReflectY leftside rotonly).fScale = ⟨s.fScale.x, -s.fScale.y, s.fScale.z⟩ ∧
    (s.ReflectY leftside rotonly).IsReflection = !s.IsReflection ∧
    (s.ReflectZ leftside rotonly).fScale = ⟨s.fScale.x, s.fScale.y, -s.fScale.z⟩ ∧
    (s.ReflectZ leftside rotonly).IsReflection = !s.IsReflection :=
  ⟨rfl, testBit_setBitTo_self s.fBits 20 _, rfl, testBit_setBitTo_self s.fBits 20 _,
   rfl, testBit_setBitTo_self s.fBits 20 _⟩

/-- C18: for the identity transformation and every vector `v`, each of the
six mappings (`LocalToMaster`, `LocalToMasterVect`, `LocalToMasterBomb`,
`MasterToLocal`, `MasterToLocalVect`, `MasterToLocalBomb`) returns `v`
unchanged; each is a total function, with no failure path. -/
theorem C18_identity_maps_copy (v : Vec3) :
    TGeoIdentity.LocalToMaster v = v ∧ TGeoIdentity.LocalToMasterVect v = v ∧
    TGeoIdentity.LocalToMasterBomb v = v ∧ TGeoIdentity.MasterToLocal v = v ∧
    TGeoIdentity.MasterToLocalVect v = v ∧ TGeoIdentity.MasterToLocalBomb v = v ∧
    Transform.identity.LocalToMaster v = TGeoIdentity.LocalToMaster v ∧
    Transform.identity.MasterToLocal v = TGeoIdentity.MasterToLocal v :=
  ⟨rfl, rfl, rfl, rfl, rfl, rfl, rfl, rfl⟩

/-- C19: every specialised class reports the neutral value for each component
it does not store, whatever the values it does store: the identity reports
translation `(0,0,0)`, the identity matrix and scale `(1,1,1)`; a translation
reports the identity matrix and scale `(1,1,1)`; a rotation reports
translation `(0,0,0)` and scale `(1,1,1)`; a scale reports translation
`(0,0,0)` and the identity matrix; a combined transformation reports scale
`(1,1,1)`. -/
theorem C19_neutral_components (t : Vec3) (r : Mat3) (s : Vec3) :
    Transform.identity.GetTranslation = ⟨0, 0, 0⟩ ∧
    Transform.identity.GetRotationMatrix = ⟨1, 0, 0, 0, 1, 0, 0, 0, 1⟩ ∧
    Transform.identity.GetScale = ⟨1, 1, 1⟩ ∧
    (Transform.translation t).GetRotationMatrix = ⟨1, 0, 0, 0, 1, 0, 0, 0, 1⟩ ∧
    (Transform.translation t).GetScale = ⟨1, 1, 1⟩ ∧
    (Transform.rotation r).GetTranslation = ⟨0, 0, 0⟩ ∧
    (Transform.rotation r).GetScale = ⟨1, 1, 1⟩ ∧
    (Transform.scale s).GetTranslation = ⟨0, 0, 0⟩ ∧
    (Transform.scale s).GetRotationMatrix = ⟨1, 0, 0, 0, 1, 0, 0, 0, 1⟩ ∧
    (Transform.combi t r).GetScale = ⟨1, 1, 1⟩ :=
  ⟨rfl, rfl, rfl, rfl, rfl, rfl, rfl, rfl, rfl, rfl⟩

/-! ## Incremental rotations -/

/-- C12: for every rotation with matrix `M` and every angle, with `c` and `s`
the cosine and sine of the angle, `RotateX`, `RotateY` and `RotateZ` replace
the matrix by `R_axis·M`, the elementary rotation multiplied on the left of
the old matrix:

* `RotateX` keeps row 0 and turns rows 1 and 2 into `c·row1 - s·row2` and
  `s·row1 + c·row2`; `RotateY` keeps row 1 and turns rows 0 and 2 into
  `c·row0 + s·row2` and `-s·row0 + c·row2`; `RotateZ` keeps row 2 and turns
  rows 0 and 1 into `c·row0 - s·row1` and `s·row0 + c·row1`;
* as matrices the results are the products of `[1,0,0; 0,c,-s; 0,s,c]`,
  `[c,0,s; 0,1,0; -s,0,c]` and `[c,-s,0; s,c,0; 0,0,1]` with `M`, in this
  order;
* a vector `v` is mapped to the image `M·v` of the old rotation, turned about
  the named axis of the master frame: its coordinate along that axis is kept
  and the two others are combined with `c` and `s`;
* when `c² + s² = 1` the three elementary matrices are orthonormal with
  determinant 1 and the determinant of the rotation is kept.

With cosine 0 and sine 1, a quarter turn, the identity rotation turned about
x keeps the x axis and takes the y axis to the z axis, turned about y it keeps
the y axis and takes the z axis to the x axis, turned about z it keeps the z
axis and takes the x axis to the y axis.  For the quarter turn about z rotated
by a quarter turn about x the result differs from the product in the other
order, `M·R_x`. -/
theorem C12_rotate_multiplies_on_the_left (tr : Trig) (r : TGeoRotation) (angle : ℚ)
    (v : Vec3) :
    (r.RotateX tr angle).fRotationMatrix =
      ⟨r.fRotationMatrix.m00, r.fRotationMatrix.m01, r.fRotationMatrix.m02,
       tr.cosDeg angle * r.fRotationMatrix.m10 - tr.sinDeg angle * r.fRotationMatrix.m20,
       tr.cosDeg angle * r.fRotationMatrix.m11 - tr.sinDeg angle * r.fRotationMatrix.m21,
       tr.cosDeg angle * r.fRotationMatrix.m12 - tr.sinDeg angle * r.fRotationMatrix.m22,
       tr.sinDeg angle * r.fRotationMatrix.m10 + tr.cosDeg angle * r.fRotationMatrix.m20,
       tr.sinDeg angle * r.fRotationMatrix.m11 + tr.cosDeg angle * r.fRotationMatrix.m21,
       tr.sinDeg angle * r.fRotationMatrix.m12 + tr.cosDeg angle * r.fRotationMatrix.m22⟩ ∧
    (r.RotateY tr angle).fRotationMatrix =
      ⟨tr.cosDeg angle * r.fRotationMatrix.m00 + tr.sinDeg angle * r.fRotationMatrix.m20,
       tr.cosDeg angle * r.fRotationMatrix.m01 + tr.sinDeg angle * r.fRotationMatrix.m21,
       tr.cosDeg angle * r.fRotationMatrix.m02 + tr.sinDeg angle * r.fRotationMatrix.m22,
       r.fRotationMatrix.m10, r.fRotationMatrix.m11, r.fRotationMatrix.m12,
       -(tr.sinDeg angle) * r.fRotationMatrix.m00 + tr.cosDeg angle * r.fRotationMatrix.m20,
       -(tr.sinDeg angle) * r.fRotationMatrix.m01 + tr.cosDeg angle * r.fRotationMatrix.m21,
       -(tr.sinDeg angle) * r.fRotationMatrix.m02 + tr.cosDeg angle * r.fRotationMatrix.m22⟩ ∧
    (r.RotateZ tr angle).fRotationMatrix =
      ⟨tr.cosDeg angle * r.fRotationMatrix.m00 - tr.sinDeg angle * r.fRotationMatrix.m10,
       tr.cosDeg angle * r.fRotationMatrix.m01 - tr.sinDeg angle * r.fRotationMatrix.m11,
       tr.cosDeg angle * r.fRotationMatrix.m02 - tr.sinDeg angle * r.fRotationMatrix.m12,
       tr.sinDeg angle * r.fRotationMatrix.m00 + tr.cosDeg angle * r.fRotationMatrix.m10,
       tr.sinDeg angle * r.fRotationMatrix.m01 + tr.cosDeg angle * r.fRotationMatrix.m11,
       tr.sinDeg angle * r.fRotationMatrix.m02 + tr.cosDeg angle * r.fRotationMatrix.m12,
       r.fRotationMatrix.m20, r.fRotationMatrix.m21, r.fRotationMatrix.m22⟩ ∧
    (r.RotateX tr angle).fRotationMatrix.toMatrix =
      !![1, 0, 0; 0, tr.cosDeg angle, -(tr.sinDeg angle); 0, tr.sinDeg angle, tr.cosDeg angle] *
        r.fRotationMatrix.toMatrix ∧
    (r.RotateY tr angle).fRotationMatrix.toMatrix =
      !![tr.cosDeg angle, 0, tr.sinDeg angle; 0, 1, 0; -(tr.sinDeg angle), 0, tr.cosDeg angle] *
        r.fRotationMatrix.toMatrix ∧
    (r.RotateZ tr angle).fRotationMatrix.toMatrix =
      !![tr.cosDeg angle, -(tr.sinDeg angle), 0; tr.sinDeg angle, tr.cosDeg angle, 0; 0, 0, 1] *
        r.fRotationMatrix.toMatrix ∧
    (r.RotateX tr angle).fRotationMatrix.mulVec v =
      ⟨(r.fRotationMatrix.mulVec v).x,
       tr.cosDeg angle * (r.fRotationMatrix.mulVec v).y -
         tr.sinDeg angle * (r.fRotationMatrix.mulVec v).z,
       tr.sinDeg angle * (r.fRotationMatrix.mulVec v).y +
         tr.cosDeg angle * (r.fRotationMatrix.mulVec v).z⟩ ∧
    (r.RotateY tr angle).fRotationMatrix.mulVec v =
      ⟨tr.cosDeg angle * (r.fRotationMatrix.mulVec v).x +
         tr.sinDeg angle * (r.fRotationMatrix.mulVec v).z,
       (r.fRotationMatrix.mulVec v).y,
       -(tr.sinDeg angle) * (r.fRotationMatrix.mulVec v).x +
         tr.cosDeg angle * (r.fRotationMatrix.mulVec v).z⟩ ∧
    (r.RotateZ tr angle).fRotationMatrix.mulVec v =
      ⟨tr.cosDeg angle * (r.fRotationMatrix.mulVec v).x -
         tr.sinDeg angle * (r.fRotationMatrix.mulVec v).y,
       tr.sinDeg angle * (r.fRotationMatrix.mulVec v).x +
         tr.cosDeg angle * (r.fRotationMatrix.mulVec v).y,
       (r.fRotationMatrix.mulVec v).z⟩ ∧
    (tr.cosDeg angle * tr.cosDeg angle + tr.sinDeg angle * tr.sinDeg angle = 1 →
      (Mat3.rotX (tr.cosDeg angle) (tr.sinDeg angle)).IsOrthonormal ∧
      (Mat3.rotY (tr.cosDeg angle) (tr.sinDeg angle)).IsOrthonormal ∧
      (Mat3.rotZ (tr.cosDeg angle) (tr.sinDeg angle)).IsOrthonormal ∧
      (r.RotateX tr angle).Determinant = r.Determinant ∧
      (r.RotateY tr angle).Determinant = r.Determinant ∧
      (r.RotateZ tr angle).Determinant = r.Determinant) ∧
    (TGeoRotation.RotateX ⟨fun _ => 0, fun _ => 1⟩ ⟨0, kIdentityMatrix⟩
        90).fRotationMatrix.mulVec ⟨1, 0, 0⟩ = ⟨1, 0, 0⟩ ∧
    (TGeoRotation.RotateX ⟨fun _ => 0, fun _ => 1⟩ ⟨0, kIdentityMatrix⟩
        90).fRotationMatrix.mulVec ⟨0, 1, 0⟩ = ⟨0, 0, 1⟩ ∧
    (TGeoRotation.RotateY ⟨fun _ => 0, fun _ => 1⟩ ⟨0, kIdentityMatrix⟩
        90).fRotationMatrix.mulVec ⟨0, 1, 0⟩ = ⟨0, 1, 0⟩ ∧
    (TGeoRotation.RotateY ⟨fun _ => 0, fun _ => 1⟩ ⟨0, kIdentityMatrix⟩
        90).fRotationMatrix.mulVec ⟨0, 0, 1⟩ = ⟨1, 0, 0⟩ ∧
    (TGeoRotation.RotateZ ⟨fun _ => 0, fun _ => 1⟩ ⟨0, kIdentityMatrix⟩
        90).fRotationMatrix.mulVec ⟨0, 0, 1⟩ = ⟨0, 0, 1⟩ ∧
    (TGeoRotation.RotateZ ⟨fun _ => 0, fun _ => 1⟩ ⟨0, kIdentityMatrix⟩
        90).fRotationMatrix.mulVec ⟨1, 0, 0⟩ = ⟨0, 1, 0⟩ ∧
    (TGeoRotation.RotateX ⟨fun _ => 0, fun _ => 1⟩ ⟨kGeoRotation, Mat3.rotZ 0 1⟩
        90).fRotationMatrix = ⟨0, -1, 0, 0, 0, -1, 1, 0, 0⟩ ∧
    (Mat3.rotZ 0 1).mul (Mat3.rotX 0 1) = ⟨0, 0, 1, 1, 0, 0, 0, 1, 0⟩ := by
  refine ⟨?_, ?_, ?_, Mat3.toMatrix_mul _ _, Mat3.toMatrix_mul _ _, Mat3.toMatrix_mul _ _,
    ?_, ?_, ?_, fun h => ⟨Mat3.isOrthonormal_rotX _ _ h, Mat3.isOrthonormal_rotY _ _ h,
      Mat3.isOrthonormal_rotZ _ _ h, ?_, ?_, ?_⟩, ?_, ?_, ?_, ?_, ?_, ?_, ?_, ?_⟩
  · ext <;> simp only [TGeoRotation.RotateX, Mat3.mul, Mat3.rotX] <;> ring
  · ext <;> simp only [TGeoRotation.RotateY, Mat3.mul, Mat3.rotY] <;> ring
  · ext <;> simp only [TGeoRotation.RotateZ, Mat3.mul, Mat3.rotZ] <;> ring
  · ext <;> simp only [TGeoRotation.RotateX, Mat3.mul, Mat3.rotX, Mat3.mulVec] <;> ring
  · ext <;> simp only [TGeoRotation.RotateY, Mat3.mul, Mat3.rotY, Mat3.mulVec] <;> ring
  · ext <;> simp only [TGeoRotation.RotateZ, Mat3.mul, Mat3.rotZ, Mat3.mulVec] <;> ring
  · simp only [TGeoRotation.Determinant, TGeoRotation.RotateX, Mat3.det_mul]
    have : (Mat3.rotX (tr.cosDeg angle) (tr.sinDeg angle)).det = 1 := by
      simp only [Mat3.det, Mat3.rotX]
      linarith
    rw [this, one_mul]
  · simp only [TGeoRotation.Determinant, TGeoRotation.RotateY, Mat3.det_mul]
    have : (Mat3.rotY (tr.cosDeg angle) (tr.sinDeg angle)).det = 1 := by
      simp only [Mat3.det, Mat3.rotY]
      linarith
    rw [this, one_mul]
  · simp only [TGeoRotation.Determinant, TGeoRotation.RotateZ, Mat3.det_mul]
    have : (Mat3.rotZ (tr.cosDeg angle) (tr.sinDeg angle)).det = 1 := by
      simp only [Mat3.det, Mat3.rotZ]
      linarith
    rw [this, one_mul]
  · ext <;> norm_num [TGeoRotation.RotateX, Mat3.mul, Mat3.rotX, Mat3.mulVec, kIdentityMatrix]
  · ext <;> norm_num [TGeoRotation.RotateX, Mat3.mul, Mat3.rotX, Mat3.mulVec, kIdentityMatrix]
  · ext <;> norm_num [TGeoRotation.RotateY, Mat3.mul, Mat3.rotY, Mat3.mulVec, kIdentityMatrix]
  · ext <;> norm_num [TGeoRotation.RotateY, Mat3.mul, Mat3.rotY, Mat3.mulVec, kIdentityMatrix]
  · ext <;> norm_num [TGeoRotation.RotateZ, Mat3.mul, Mat3.rotZ, Mat3.mulVec, kIdentityMatrix]
  · ext <;> norm_num [TGeoRotation.RotateZ, Mat3.mul, Mat3.rotZ, Mat3.mulVec, kIdentityMatrix]
  · ext <;> norm_num [TGeoRotation.RotateX, Mat3.mul, Mat3.rotX, Mat3.rotZ]
  · ext <;> norm_num [Mat3.mul, Mat3.rotX, Mat3.rotZ]

/-! ## The general transformation and its inverse -/

theorem Vec3.recip_hmul_hmul (s v : Vec3) (hs : s.NonZero) : s.recip.hmul (s.hmul v) = v := by
  obtain ⟨hx, hy, hz⟩ := hs
  ext <;> simp only [Vec3.recip, Vec3.hmul] <;> field_simp

theorem Vec3.add_sub_cancel (v t : Vec3) : (v.add t).sub t = v := by
  ext <;> simp [Vec3.add, Vec3.sub]

/-- The inverse of a general transformation maps a point of the master frame
by `Sinv·(Rᵗ·(master - T))`. -/
theorem Transform.gen_inverse_localToMaster (t : Vec3) (r : Mat3) (s m : Vec3) :
    (Transform.gen t r s).Inverse.LocalToMaster m =
      s.recip.hmul (r.transpose.mulVec (m.sub t)) := by
  simp only [Transform.Inverse, Transform.LocalToMaster, Vec3.unit_hmul]
  ext <;>
    simp only [Vec3.add, Vec3.neg, Vec3.sub, Vec3.hmul, Vec3.recip, Mat3.mulVec,
      Mat3.diagMul, Mat3.transpose] <;>
    ring

/-- C13: for every general transformation with translation `T`, orthonormal
rotation `R` and non-zero scale `S`, `LocalToMaster(p) = R·(S·p) + T`, the
inverse undoes it in reverse order, `Sinv·(Rᵗ·(m - T))`, both as
`MasterToLocal` and as the mapping of `Inverse()`, and
`G.Inverse().LocalToMaster(G.LocalToMaster(p)) = p` for every point `p`. -/
theorem C13_gen_inverse_undoes_in_reverse_order (t : Vec3) (r : Mat3) (s p m : Vec3)
    (hR : r.IsOrthonormal) (hS : s.NonZero) :
    (Transform.gen t r s).LocalToMaster p = (r.mulVec (s.hmul p)).add t ∧
    (Transform.gen t r s).MasterToLocal m = s.recip.hmul (r.transpose.mulVec (m.sub t)) ∧
    (Transform.gen t r s).Inverse.LocalToMaster m =
      s.recip.hmul (r.transpose.mulVec (m.sub t)) ∧
    (Transform.gen t r s).Inverse.LocalToMaster ((Transform.gen t r s).LocalToMaster p) = p ∧
    (Transform.gen t r s).MasterToLocal ((Transform.gen t r s).LocalToMaster p) = p := by
  have hrt : r.transpose.mul r = kIdentityMatrix := hR
  have hback : s.recip.hmul (r.transpose.mulVec (((r.mulVec (s.hmul p)).add t).sub t)) = p := by
    rw [Vec3.add_sub_cancel, Mat3.mulVec_mulVec, hrt, Mat3.identity_mulVec,
      Vec3.recip_hmul_hmul s p hS]
  refine ⟨rfl, rfl, Transform.gen_inverse_localToMaster t r s m, ?_, ?_⟩
  · rw [Transform.gen_inverse_localToMaster]
    exact hback
  · exact hback

/-- C13 (witness): the statement at translation `(1,0,0)`, the quarter turn
about the z axis, scale `(2,1,1)` and the point `(1,0,0)`. -/
theorem C13_gen_inverse_undoes_in_reverse_order_witness :
    (Transform.gen ⟨1, 0, 0⟩ ⟨0, -1, 0, 1, 0, 0, 0, 0, 1⟩ ⟨2, 1, 1⟩).Inverse.LocalToMaster
        ((Transform.gen ⟨1, 0, 0⟩ ⟨0, -1, 0, 1, 0, 0, 0, 0, 1⟩ ⟨2, 1, 1⟩).LocalToMaster
          ⟨1, 0, 0⟩) = ⟨1, 0, 0⟩ :=
  (C13_gen_inverse_undoes_in_reverse_order ⟨1, 0, 0⟩ ⟨0, -1, 0, 1, 0, 0, 0, 0, 1⟩ ⟨2, 1, 1⟩
    ⟨1, 0, 0⟩ ⟨0, 0, 0⟩
    (by norm_num [Mat3.IsOrthonormal, Mat3.mul, Mat3.transpose, kIdentityMatrix])
    (by decide)).2.2.2.1

/-! ## Shared rotations of `TGeoCombiTrans` -/

theorem testBit_resetBit_other (b n k : Nat) (hnk : n ≠ k) :
    TestBit (ResetBit b (BIT n)) (BIT k) = TestBit b (BIT k) := by
  unfold TestBit ResetBit BIT
  have h : (b ^^^ (b &&& 2 ^ n)) &&& 2 ^ k = b &&& 2 ^ k := by
    apply Nat.eq_of_testBit_eq
    intro i
    simp only [Nat.testBit_and, Nat.testBit_xor, Nat.testBit_two_pow]
    by_cases hi : k = i
    · subst hi
      simp [hnk]
    · simp [hi]
  rw [h]

theorem testBit_setBitTo_other (b n k : Nat) (v : Bool) (hnk : n ≠ k) :
    TestBit (SetBitTo b (BIT n) v) (BIT k) = TestBit b (BIT k) := by
  cases v
  · simpa [SetBitTo] using testBit_resetBit_other b n k hnk
  · simpa [SetBitTo] using testBit_setBit_other b n k hnk

/-- Clone-before-mutate: applied to a transformation that points to a rotation
it does not own, `mutateRotation` leaves every object of the heap as it was
and hands the transformation a new object holding the mutated copy. -/
theorem TGeoCombiTrans.mutateRotation_shared (c : TGeoCombiTrans) (h : RotHeap)
    (f : TGeoRotation → TGeoRotation) (a : Nat) (r0 : TGeoRotation)
    (hp : c.fRotation = some a) (hr : h.read a = some r0) (ho : c.IsOwned = false) :
    TGeoCombiTrans.ClonedThenMutated h a (f r0) (c.mutateRotation h f) := by
  have hlt : a < h.cells.length := by
    unfold RotHeap.read at hr
    exact (List.getElem?_eq_some.mp hr).1
  have hown : c.ownRotation h =
      ({ c with fRotation := some h.cells.length,
                fBits := SetBit c.fBits kGeoMatrixOwned }, ⟨h.cells ++ [r0]⟩) := by
    simp [TGeoCombiTrans.ownRotation, hp, ho, hr, RotHeap.alloc]
  have hmut : c.mutateRotation h f =
      ({ c with fRotation := some h.cells.length,
                fBits := SetBit c.fBits kGeoMatrixOwned }, ⟨h.cells ++ [f r0]⟩) := by
    simp [TGeoCombiTrans.mutateRotation, hown, RotHeap.read, RotHeap.write]
  have hold : ∀ b rb, h.read b = some rb →
      (RotHeap.mk (h.cells ++ [f r0])).read b = some rb := by
    intro b rb hb
    unfold RotHeap.read at hb ⊢
    have hb1 : b < h.cells.length := (List.getElem?_eq_some.mp hb).1
    simp only
    rw [List.getElem?_append_left hb1]
    exact hb
  have hnew : (RotHeap.mk (h.cells ++ [f r0])).read h.cells.length = some (f r0) := by
    simp [RotHeap.read]
  rw [hmut]
  refine ⟨?_, hold, ⟨h.cells.length, rfl, by omega, hnew⟩, testBit_setBit_self c.fBits 23, ?_⟩
  · rw [hr]
    exact hold a r0 hr
  · simp only [TGeoCombiTrans.GetRotationMatrix, Option.bind, hnew]

/-- C20: for every combined transformation that points to a rotation object it
does not own (a shared rotation), each of `RotateX/Y/Z` and `ReflectX/Y/Z`
leaves the shared object, and every other object already allocated, exactly
as it was; the transformation ends up pointing to a different object, which
it owns, holding the rotated or reflected copy, and reports that copy as its
rotation matrix. -/
theorem C20_shared_rotation_is_cloned_before_mutation (tr : Trig) (c : TGeoCombiTrans)
    (h : RotHeap) (a : Nat) (r0 : TGeoRotation) (angle : ℚ) (leftside rotonly : Bool)
    (hp : c.fRotation = some a) (hr : h.read a = some r0) (ho : c.IsOwned = false) :
    TGeoCombiTrans.ClonedThenMutated h a (r0.RotateX tr angle) (c.RotateX tr h angle) ∧
    TGeoCombiTrans.ClonedThenMutated h a (r0.RotateY tr angle) (c.RotateY tr h angle) ∧
    TGeoCombiTrans.ClonedThenMutated h a (r0.RotateZ tr angle) (c.RotateZ tr h angle) ∧
    TGeoCombiTrans.ClonedThenMutated h a (r0.ReflectX leftside rotonly)
      (c.ReflectX h leftside rotonly) ∧
    TGeoCombiTrans.ClonedThenMutated h a (r0.ReflectY leftside rotonly)
      (c.ReflectY h leftside rotonly) ∧
    TGeoCombiTrans.ClonedThenMutated h a (r0.ReflectZ leftside rotonly)
      (c.ReflectZ h leftside rotonly) := by
  have hrot : TestBit (SetBit c.fBits kGeoRotation) kGeoMatrixOwned = false := by
    have := testBit_setBit_other c.fBits 18 23 (by decide)
    exact this.trans ho
  have hrefl : ∀ v : Bool,
      TestBit (SetBitTo c.fBits kGeoReflection v) kGeoMatrixOwned = false := by
    intro v
    have := testBit_setBitTo_other c.fBits 20 23 v (by decide)
    exact this.trans ho
  refine ⟨?_, ?_, ?_, ?_, ?_, ?_⟩
  · exact TGeoCombiTrans.mutateRotation_shared _ h _ a r0 hp hr hrot
  · exact TGeoCombiTrans.mutateRotation_shared _ h _ a r0 hp hr hrot
  · exact TGeoCombiTrans.mutateRotation_shared _ h _ a r0 hp hr hrot
  · exact TGeoCombiTrans.mutateRotation_shared _ h _ a r0 hp hr (hrefl _)
  · exact TGeoCombiTrans.mutateRotation_shared _ h _ a r0 hp hr (hrefl _)
  · exact TGeoCombiTrans.mutateRotation_shared _ h _ a r0 hp hr (hrefl _)

/-- C20 (witness): the statement for the combined transformation built from
the pointer to the only rotation of the heap, the quarter turn about z. -/
theorem C20_shared_rotation_is_cloned_before_mutation_witness :
    (TGeoCombiTrans.RotateX ⟨fun _ => 0, fun _ => 1⟩ (TGeoCombiTrans.construct 1 2 3 (some 0))
        ⟨[⟨kGeoRotation, Mat3.rotZ 0 1⟩]⟩ 90).2.read 0 =
      RotHeap.read ⟨[⟨kGeoRotation, Mat3.rotZ 0 1⟩]⟩ 0 :=
  (C20_shared_rotation_is_cloned_before_mutation ⟨fun _ => 0, fun _ => 1⟩
    (TGeoCombiTrans.construct 1 2 3 (some 0)) ⟨[⟨kGeoRotation, Mat3.rotZ 0 1⟩]⟩ 0
    ⟨kGeoRotation, Mat3.rotZ 0 1⟩ 90 true false rfl rfl (by decide)).1.1

/-! ## The classification predicates -/

theorem testBit_bit (b n : Nat) : TestBit b (BIT n) = b.testBit n := by
  unfold TestBit BIT
  rw [Nat.and_two_pow]
  cases b.testBit n <;> simp

theorem testBit_or (b f g : Nat) : TestBit b (f ||| g) = (TestBit b f || TestBit b g) := by
  unfold TestBit
  rw [Nat.and_or_distrib_left]
  by_cases hf : b &&& f = 0
  · simp [hf]
  · have hne : (b &&& f) ||| (b &&& g) ≠ 0 := by
      intro h0
      apply hf
      apply Nat.eq_of_testBit_eq
      intro i
      have hi := congrArg (fun x => Nat.testBit x i) h0
      simp only [Nat.testBit_or, Nat.zero_testBit, Bool.or_eq_false_iff] at hi
      simpa using hi.1
    have h1 : ((b &&& f ||| b &&& g) != 0) = true := bne_iff_ne.mpr hne
    have h2 : (b &&& f != 0) = true := bne_iff_ne.mpr hf
    rw [h1, h2]
    rfl

theorem testBit_genTrans (b : Nat) :
    TestBit b kGeoGenTrans = (b.testBit 17 || b.testBit 18 || b.testBit 19) := by
  unfold kGeoGenTrans kGeoTranslation kGeoRotation kGeoScale
  rw [testBit_or, testBit_or, testBit_bit, testBit_bit, testBit_bit]

/-- Writing one status bit leaves every other bit of the word as it was. -/
theorem testBit_setBitTo_bit (b n k : Nat) (v : Bool) (hnk : n ≠ k) :
    (SetBitTo b (BIT n) v).testBit k = b.testBit k := by
  rw [← testBit_bit, ← testBit_bit, testBit_setBitTo_other b n k v hnk]

/-- The three classification predicates read only the bits 17, 18 and 19. -/
theorem TGeoMatrix.predicates_of_bits (b c : Nat) (h17 : c.testBit 17 = b.testBit 17)
    (h18 : c.testBit 18 = b.testBit 18) (h19 : c.testBit 19 = b.testBit 19) :
    TGeoMatrix.IsIdentity c = TGeoMatrix.IsIdentity b ∧
    TGeoMatrix.IsCombi c = TGeoMatrix.IsCombi b ∧
    TGeoMatrix.IsGeneral c = TGeoMatrix.IsGeneral b := by
  unfold TGeoMatrix.IsIdentity TGeoMatrix.IsCombi TGeoMatrix.IsGeneral
  rw [testBit_genTrans, testBit_genTrans]
  unfold kGeoTranslation kGeoRotation kGeoScale
  simp only [testBit_bit, h17, h18, h19, and_self]

/-- C22: the classification predicates are derived from the three capability
bits 17 (translation), 18 (rotation) and 19 (scale) of the status word: for
every word, `IsIdentity` holds iff none of the three is set, `IsCombi` iff the
translation and rotation bits are both set, `IsGeneral` iff all three are set;
hence `IsGeneral` implies `IsCombi` and `IsCombi` excludes `IsIdentity`; and
none of the three predicates is changed by `SetShared` or by writing the
reflection, registered or owned bit. -/
theorem C22_classification_from_three_bits (b : Nat) (flag : Bool) :
    (TGeoMatrix.IsIdentity b = true ↔
      b.testBit 17 = false ∧ b.testBit 18 = false ∧ b.testBit 19 = false) ∧
    (TGeoMatrix.IsCombi b = true ↔ b.testBit 17 = true ∧ b.testBit 18 = true) ∧
    (TGeoMatrix.IsGeneral b = true ↔
      b.testBit 17 = true ∧ b.testBit 18 = true ∧ b.testBit 19 = true) ∧
    (TGeoMatrix.IsGeneral b = true → TGeoMatrix.IsCombi b = true) ∧
    (TGeoMatrix.IsCombi b = true → TGeoMatrix.IsIdentity b = false) ∧
    (TGeoMatrix.IsIdentity (TGeoMatrix.SetShared b flag) = TGeoMatrix.IsIdentity b ∧
      TGeoMatrix.IsCombi (TGeoMatrix.SetShared b flag) = TGeoMatrix.IsCombi b ∧
      TGeoMatrix.IsGeneral (TGeoMatrix.SetShared b flag) = TGeoMatrix.IsGeneral b) ∧
    (TGeoMatrix.IsIdentity (SetBitTo b kGeoReflection flag) = TGeoMatrix.IsIdentity b ∧
      TGeoMatrix.IsCombi (SetBitTo b kGeoReflection flag) = TGeoMatrix.IsCombi b ∧
      TGeoMatrix.IsGeneral (SetBitTo b kGeoReflection flag) = TGeoMatrix.IsGeneral b) ∧
    (TGeoMatrix.IsIdentity (SetBitTo b kGeoRegistered flag) = TGeoMatrix.IsIdentity b ∧
      TGeoMatrix.IsCombi (SetBitTo b kGeoRegistered flag) = TGeoMatrix.IsCombi b ∧
      TGeoMatrix.IsGeneral (SetBitTo b kGeoRegistered flag) = TGeoMatrix.IsGeneral b) ∧
    (TGeoMatrix.IsIdentity (SetBitTo b kGeoMatrixOwned flag) = TGeoMatrix.IsIdentity b ∧
      TGeoMatrix.IsCombi (SetBitTo b kGeoMatrixOwned flag) = TGeoMatrix.IsCombi b ∧
      TGeoMatrix.IsGeneral (SetBitTo b kGeoMatrixOwned flag) = TGeoMatrix.IsGeneral b) := by
  have hT : TestBit b kGeoTranslation = b.testBit 17 := testBit_bit b 17
  have hR : TestBit b kGeoRotation = b.testBit 18 := testBit_bit b 18
  have hS : TestBit b kGeoScale = b.testBit 19 := testBit_bit b 19
  have hId : TGeoMatrix.IsIdentity b = !(b.testBit 17 || b.testBit 18 || b.testBit 19) := by
    unfold TGeoMatrix.IsIdentity
    rw [testBit_genTrans]
  have hCo : TGeoMatrix.IsCombi b = (b.testBit 17 && b.testBit 18) := by
    unfold TGeoMatrix.IsCombi
    rw [hT, hR]
  have hGe : TGeoMatrix.IsGeneral b = (b.testBit 17 && b.testBit 18 && b.testBit 19) := by
    unfold TGeoMatrix.IsGeneral
    rw [hT, hR, hS]
  refine ⟨?_, ?_, ?_, ?_, ?_, ?_, ?_, ?_, ?_⟩
  · rw [hId]
    cases b.testBit 17 <;> cases b.testBit 18 <;> cases b.testBit 19 <;> simp
  · rw [hCo]
    simp
  · rw [hGe]
    cases b.testBit 17 <;> cases b.testBit 18 <;> cases b.testBit 19 <;> simp
  · rw [hGe, hCo]
    cases b.testBit 17 <;> cases b.testBit 18 <;> cases b.testBit 19 <;> simp
  · rw [hCo, hId]
    cases b.testBit 17 <;> cases b.testBit 18 <;> cases b.testBit 19 <;> simp
  · exact TGeoMatrix.predicates_of_bits b _ (testBit_setBitTo_bit b 14 17 flag (by decide))
      (testBit_setBitTo_bit b 14 18 flag (by decide))
      (testBit_setBitTo_bit b 14 19 flag (by decide))
  · exact TGeoMatrix.predicates_of_bits b _ (testBit_setBitTo_bit b 20 17 flag (by decide))
      (testBit_setBitTo_bit b 20 18 flag (by decide))
      (testBit_setBitTo_bit b 20 19 flag (by decide))
  · exact TGeoMatrix.predicates_of_bits b _ (testBit_setBitTo_bit b 21 17 flag (by decide))
      (testBit_setBitTo_bit b 21 18 flag (by decide))
      (testBit_setBitTo_bit b 21 19 flag (by decide))
  · exact TGeoMatrix.predicates_of_bits b _ (testBit_setBitTo_bit b 23 17 flag (by decide))
      (testBit_setBitTo_bit b 23 18 flag (by decide))
      (testBit_setBitTo_bit b 23 19 flag (by decide))

/-! ## Reflections of a scale, once and twice -/

/-- C23: for every scale whose three factors are non-zero and whose reflection
flag is set exactly when `sx*sy*sz < 0`, the same holds after each of
`ReflectX`, `ReflectY` and `ReflectZ`; and applying the same reflection twice
gives back the three factors and the reflection flag. -/
theorem C23_scale_reflect_keeps_sign_flag (s : TGeoScale) (l r l2 r2 : Bool)
    (hnz : s.fScale.NonZero) (hflag : s.IsReflection = true ↔ s.fScale.prod < 0) :
    ((s.ReflectX l r).fScale.NonZero ∧
      ((s.ReflectX l r).IsReflection = true ↔ (s.ReflectX l r).fScale.prod < 0)) ∧
    ((s.ReflectY l r).fScale.NonZero ∧
      ((s.ReflectY l r).IsReflection = true ↔ (s.ReflectY l r).fScale.prod < 0)) ∧
    ((s.ReflectZ l r).fScale.NonZero ∧
      ((s.ReflectZ l r).IsReflection = true ↔ (s.ReflectZ l r).fScale.prod < 0)) ∧
    (((s.ReflectX l r).ReflectX l2 r2).fScale = s.fScale ∧
      ((s.ReflectX l r).ReflectX l2 r2).IsReflection = s.IsReflection) ∧
    (((s.ReflectY l r).ReflectY l2 r2).fScale = s.fScale ∧
      ((s.ReflectY l r).ReflectY l2 r2).IsReflection = s.IsReflection) ∧
    (((s.ReflectZ l r).ReflectZ l2 r2).fScale = s.fScale ∧
      ((s.ReflectZ l r).ReflectZ l2 r2).IsReflection = s.IsReflection) := by
  have hflip : ∀ t : TGeoScale,
      TestBit (SetBitTo t.fBits kGeoReflection (!t.IsReflection)) kGeoReflection =
        !t.IsReflection := fun t => testBit_setBitTo_self t.fBits 20 _
  have htwice : ∀ t u : TGeoScale, u.IsReflection = (!t.IsReflection) →
      TestBit (SetBitTo u.fBits kGeoReflection (!u.IsReflection)) kGeoReflection =
        t.IsReflection := by
    intro t u hu
    rw [hflip u, hu, Bool.not_not]
  refine ⟨?_, ?_, ?_, ⟨?_, ?_⟩, ⟨?_, ?_⟩, ⟨?_, ?_⟩⟩
  · refine reflect_invariant s.fBits s.fScale _ ?_ ?_ hflag hnz
    · exact ⟨neg_ne_zero.mpr hnz.1, hnz.2.1, hnz.2.2⟩
    · simp only [Vec3.prod, TGeoScale.ReflectX]
      ring
  · refine reflect_invariant s.fBits s.fScale _ ?_ ?_ hflag hnz
    · exact ⟨hnz.1, neg_ne_zero.mpr hnz.2.1, hnz.2.2⟩
    · simp only [Vec3.prod, TGeoScale.ReflectY]
      ring
  · refine reflect_invariant s.fBits s.fScale _ ?_ ?_ hflag hnz
    · exact ⟨hnz.1, hnz.2.1, neg_ne_zero.mpr hnz.2.2⟩
    · simp only [Vec3.prod, TGeoScale.ReflectZ]
      ring
  · ext <;> simp [TGeoScale.ReflectX]
  · exact htwice s (s.ReflectX l r) (hflip s)
  · ext <;> simp [TGeoScale.ReflectY]
  · exact htwice s (s.ReflectY l r) (hflip s)
  · ext <;> simp [TGeoScale.ReflectZ]
  · exact htwice s (s.ReflectZ l r) (hflip s)

/-- C23 (witness): the statement at the scale `(2,-3,1)`, whose product is
negative and whose reflection flag is set. -/
theorem C23_scale_reflect_keeps_sign_flag_witness :
    (TGeoScale.ReflectX ⟨kGeoScale ||| kGeoReflection, ⟨2, -3, 1⟩⟩ true false).fScale.NonZero ∧
    ((TGeoScale.ReflectX ⟨kGeoScale ||| kGeoReflection, ⟨2, -3, 1⟩⟩ true false).IsReflection
        = true ↔
      (TGeoScale.ReflectX ⟨kGeoScale ||| kGeoReflection, ⟨2, -3, 1⟩⟩ true false).fScale.prod
        < 0) :=
  (C23_scale_reflect_keeps_sign_flag ⟨kGeoScale ||| kGeoReflection, ⟨2, -3, 1⟩⟩
    true false true false (by decide)
    (by
      constructor
      · intro _
        norm_num [Vec3.prod]
      · intro _
        decide)).1

/-! ## Vector and "bomb" mappings of rotations and scales -/

/-- C24: for every rotation and every vector `v`, `LocalToMasterVect(v)` and
`LocalToMasterBomb(v)` are `LocalToMaster(v)`, and `MasterToLocalVect(v)` and
`MasterToLocalBomb(v)` are `MasterToLocal(v)`; for every scale,
`LocalToMasterVect(v)` is `LocalToMaster(v)` and `MasterToLocalVect(v)` is
`MasterToLocal(v)`. -/
theorem C24_vect_and_bomb_are_point_mappings (r : TGeoRotation) (s : TGeoScale) (v : Vec3) :
    r.LocalToMasterVect v = r.LocalToMaster v ∧
    r.LocalToMasterBomb v = r.LocalToMaster v ∧
    r.MasterToLocalVect v = r.MasterToLocal v ∧
    r.MasterToLocalBomb v = r.MasterToLocal v ∧
    s.LocalToMasterVect v = s.LocalToMaster v ∧
    s.MasterToLocalVect v = s.MasterToLocal v ∧
    r.LocalToMaster v = (Transform.rotation r.fRotationMatrix).LocalToMaster v ∧
    r.MasterToLocal v = (Transform.rotation r.fRotationMatrix).MasterToLocal v ∧
    s.LocalToMaster v = (Transform.scale s.fScale).LocalToMaster v ∧
    s.MasterToLocal v = (Transform.scale s.fScale).MasterToLocal v :=
  ⟨rfl, rfl, rfl, rfl, rfl, rfl, rfl, rfl, rfl, rfl⟩

end TGeo

namespace RooFuncWrapperTest

/-! ## The hard-coded Gaussian of `GaussianNormalizedHardcoded` -/

/-- The integral of the Gaussian kernel over the real line is `√(2π)·sigma`. -/
theorem integral_gaussKernel (mu sigma : ℝ) (hs : 0 < sigma) :
    ∫ t : ℝ, gaussKernel t mu sigma = Real.sqrt (2 * Real.pi) * sigma := by
  have h1 : (fun t : ℝ => gaussKernel t mu sigma) =
      fun t : ℝ => (fun u : ℝ => Real.exp (-(1 / (2 * sigma ^ 2)) * u ^ 2)) (t - mu) := by
    funext t
    simp only [gaussKernel]
    congr 1
    field_simp
    ring
  rw [h1, MeasureTheory.integral_sub_right_eq_self
    (fun u : ℝ => Real.exp (-(1 / (2 * sigma ^ 2)) * u ^ 2)) mu, integral_gaussian]
  have h2 : Real.pi / (1 / (2 * sigma ^ 2)) = (2 * Real.pi) * sigma ^ 2 := by
    field_simp
    ring
  rw [h2, Real.sqrt_mul (by positivity), Real.sqrt_sq hs.le]

/-- C21: for every `x`, `mu` and `sigma > 0` the hard-coded expression
`exp(-0.5·(x-mu)²/sigma²) / (sqrt(2π)·sigma)` of the wrapper equals the
reference Gaussian pdf in `x` normalised over the whole real line; `mu` being
arbitrary, this holds before and after a parameter is changed. -/
theorem C21_hardcoded_gaussian_is_normalized (x mu sigma : ℝ) (hs : 0 < sigma) :
    myGauss1 x mu sigma = gaussNormalized x mu sigma := by
  rw [gaussNormalized, integral_gaussKernel mu sigma hs]
  simp only [myGauss1, gaussKernel]
  have h : -0.5 * (x - mu) * (x - mu) / (sigma * sigma) = -0.5 * (x - mu) ^ 2 / sigma ^ 2 := by
    ring
  rw [h]
  ring

/-- C21 (witness): the two comparisons of the test, `x = 0`, `sigma = 2`, with
`mu = 0` and then `mu = 1`. -/
theorem C21_hardcoded_gaussian_is_normalized_witness :
    myGauss1 0 0 2 = gaussNormalized 0 0 2 ∧ myGauss1 0 1 2 = gaussNormalized 0 1 2 :=
  ⟨C21_hardcoded_gaussian_is_normalized 0 0 2 (by norm_num),
   C21_hardcoded_gaussian_is_normalized 0 1 2 (by norm_num)⟩

/-! ## `getNumDerivative` -/

/-- C25: `getNumDerivative(pdf, var, normSet, eps)` fails iff `inRange` rejects
`orig + eps` or `orig - eps`, `orig` being the value of `var` on entry (with
the positive variation reported first), and then `var` is left as it was;
otherwise it returns `(plus - minus) / (2·eps)`, where `plus` and `minus` are
the values of the pdf with `var` set to `orig + eps` and to `orig - eps`, and
leaves the value of `var` equal to `orig`.  Sums, differences, the product and
the quotient are those of the arithmetic of doubles, whatever it is; `setVal`
is assumed to store the value it is given. -/
theorem C25_getNumDerivative_contract {D σ : Type} (ar : DoubleField D)
    (ops : RealLValueOps D σ) (pdf : σ → D) (var : σ) (eps : D)
    (hget : ∀ (s : σ) (x : D), ops.getVal (ops.setVal s x) = x) :
    ((∃ e, (getNumDerivative ar ops pdf var eps).1 = Except.error e) ↔
      (ops.inRange var (ar.add (ops.getVal var) eps) = false ∨
        ops.inRange var (ar.sub (ops.getVal var) eps) = false)) ∧
    ((∃ e, (getNumDerivative ar ops pdf var eps).1 = Except.error e) →
      (getNumDerivative ar ops pdf var eps).2 = var) ∧
    (ops.inRange var (ar.add (ops.getVal var) eps) = false →
      (getNumDerivative ar ops pdf var eps).1 =
        Except.error DerivError.positiveVariationOutsideOfRange) ∧
    (ops.inRange var (ar.add (ops.getVal var) eps) = true →
      ops.inRange var (ar.sub (ops.getVal var) eps) = false →
      (getNumDerivative ar ops pdf var eps).1 =
        Except.error DerivError.negativeVariationOutsideOfRange) ∧
    (ops.inRange var (ar.add (ops.getVal var) eps) = true →
      ops.inRange var (ar.sub (ops.getVal var) eps) = true →
      (getNumDerivative ar ops pdf var eps).1 =
        Except.ok (ar.div
          (ar.sub (pdf (ops.setVal var (ar.add (ops.getVal var) eps)))
            (pdf (ops.setVal (ops.setVal var (ar.add (ops.getVal var) eps))
              (ar.sub (ops.getVal var) eps))))
          (ar.mul (ar.lit 2) eps)) ∧
      ops.getVal (ops.setVal var (ar.add (ops.getVal var) eps)) = ar.add (ops.getVal var) eps ∧
      ops.getVal (ops.setVal (ops.setVal var (ar.add (ops.getVal var) eps))
        (ar.sub (ops.getVal var) eps)) = ar.sub (ops.getVal var) eps ∧
      ops.getVal (getNumDerivative ar ops pdf var eps).2 = ops.getVal var) := by
  unfold getNumDerivative
  cases hp : ops.inRange var (ar.add (ops.getVal var) eps) <;>
    cases hm : ops.inRange var (ar.sub (ops.getVal var) eps) <;>
    simp [hp, hm, hget]

/-- C25 (witness): the statement in exact arithmetic for a variable that stores
value, minimum and maximum, with the pdf `val²` and `eps = 1/2`: at value `1`
in the range `[0, 2]` the call returns `((3/2)² - (1/2)²) / 1 = 2` and leaves
the value `1`; at value `2` it fails with the positive variation out of range
and leaves the variable as it was. -/
theorem C25_getNumDerivative_contract_witness :
    (getNumDerivative exactArith
        (⟨fun s => s.1, fun s => s.2.1, fun s => s.2.2,
          fun s x => decide (s.2.1 ≤ x ∧ x ≤ s.2.2), fun s x => (x, s.2)⟩ :
          RealLValueOps ℚ (ℚ × ℚ × ℚ))
        (fun s => s.1 * s.1) (1, 0, 2) (1 / 2)).1 = Except.ok 2 ∧
    (getNumDerivative exactArith
        (⟨fun s => s.1, fun s => s.2.1, fun s => s.2.2,
          fun s x => decide (s.2.1 ≤ x ∧ x ≤ s.2.2), fun s x => (x, s.2)⟩ :
          RealLValueOps ℚ (ℚ × ℚ × ℚ))
        (fun s => s.1 * s.1) (1, 0, 2) (1 / 2)).2.1 = 1 ∧
    (getNumDerivative exactArith
        (⟨fun s => s.1, fun s => s.2.1, fun s => s.2.2,
          fun s x => decide (s.2.1 ≤ x ∧ x ≤ s.2.2), fun s x => (x, s.2)⟩ :
          RealLValueOps ℚ (ℚ × ℚ × ℚ))
        (fun s => s.1 * s.1) (2, 0, 2) (1 / 2)) =
      (Except.error DerivError.positiveVariationOutsideOfRange, (2, 0, 2)) := by
  have h := (C25_getNumDerivative_contract exactArith
    (⟨fun s => s.1, fun s => s.2.1, fun s => s.2.2,
      fun s x => decide (s.2.1 ≤ x ∧ x ≤ s.2.2), fun s x => (x, s.2)⟩ :
      RealLValueOps ℚ (ℚ × ℚ × ℚ))
    (fun s => s.1 * s.1) (1, 0, 2) (1 / 2) (fun _ _ => rfl)).2.2.2.2
    (by norm_num [exactArith]) (by norm_num [exactArith])
  have h2 := C25_getNumDerivative_contract exactArith
    (⟨fun s => s.1, fun s => s.2.1, fun s => s.2.2,
      fun s x => decide (s.2.1 ≤ x ∧ x ≤ s.2.2), fun s x => (x, s.2)⟩ :
      RealLValueOps ℚ (ℚ × ℚ × ℚ))
    (fun s => s.1 * s.1) (2, 0, 2) (1 / 2) (fun _ _ => rfl)
  refine ⟨?_, h.2.2.2, Prod.ext (h2.2.2.1 (by norm_num [exactArith]))
    (h2.2.1 ⟨_, h2.2.2.1 (by norm_num [exactArith])⟩)⟩
  rw [h.1]
  norm_num [exactArith]

/-! ## `randomizeParameters` -/

theorem randomizeFrom_length {D σ τ : Type} (ar : DoubleArith D) (ops : RealLValueOps D σ)
    (draw : Nat → D) (k : Nat) (ps : List (Arg σ τ)) :
    (randomizeFrom ar ops draw k ps).length = ps.length := by
  induction ps generalizing k with
  | nil => rfl
  | cons p ps ih => simp [randomizeFrom, ih]

/-- The element at position `i` after the loop is the element at position `i`
before it, treated with the `i`-th number drawn. -/
theorem randomizeFrom_getElem? {D σ τ : Type} (ar : DoubleArith D) (ops : RealLValueOps D σ)
    (draw : Nat → D) (k : Nat) (ps : List (Arg σ τ)) (i : Nat) :
    (randomizeFrom ar ops draw k ps)[i]? =
      (ps[i]?).map (randomizeStep ar ops (draw (k + i))) := by
  induction ps generalizing k i with
  | nil => simp [randomizeFrom]
  | cons p ps ih =>
    cases i with
    | zero => simp [randomizeFrom]
    | succ j =>
      simp only [randomizeFrom, List.getElem?_cons_succ]
      rw [ih (k + 1) j]
      have hk : k + 1 + j = k + (j + 1) := by omega
      rw [hk]

/-- In exact arithmetic a value moved by at most a tenth of its distance to one
of its bounds stays between the bounds. -/
theorem randomized_value_in_range (val mn mx mul : ℚ) (h1 : mn ≤ val) (h2 : val ≤ mx)
    (hl : lowerBound ≤ mul) (hu : mul ≤ upperBound) :
    mn ≤ val + mul * (if mul > 0 then mx - val else val - mn) ∧
    val + mul * (if mul > 0 then mx - val else val - mn) ≤ mx := by
  unfold lowerBound at hl
  unfold upperBound at hu
  by_cases hpos : mul > 0
  · rw [if_pos hpos]
    have hd : 0 ≤ mx - val := by linarith
    constructor
    · nlinarith [mul_nonneg hpos.le hd]
    · nlinarith [mul_nonneg hd (show (0 : ℚ) ≤ 1 - mul by linarith)]
  · rw [if_neg hpos]
    have hneg : mul ≤ 0 := not_lt.mp hpos
    have hd : 0 ≤ val - mn := by linarith
    constructor
    · nlinarith [mul_nonneg hd (show (0 : ℚ) ≤ 1 + mul by linarith)]
    · nlinarith [mul_nonneg hd (show (0 : ℚ) ≤ -mul by linarith)]

theorem XDouble.overflowThreshold_pos : 0 < XDouble.overflowThreshold := by
  norm_num [XDouble.overflowThreshold]

/-- A result of magnitude below the threshold does not overflow. -/
theorem XDouble.ofExact_of_lt (q : ℚ) (h1 : -XDouble.overflowThreshold < q)
    (h2 : q < XDouble.overflowThreshold) : XDouble.ofExact q = XDouble.fin q := by
  unfold XDouble.ofExact
  rw [if_neg (not_le.mpr h2), if_neg (not_le.mpr h1)]

theorem XDouble.gt_fin (a b : ℚ) : XDouble.gt (XDouble.fin a) (XDouble.fin b) = decide (b < a) := by
  by_cases h : b < a
  · simp [XDouble.gt, XDouble.le, h]
  · simp [XDouble.gt, XDouble.le, h, not_lt.mp h]

/-- In the arithmetic that overflows but does not round, a finite value moved
by at most a tenth of its distance to one of its finite bounds stays finite
and between the bounds, provided the distance between the bounds does not
overflow. -/
theorem XDouble.randomized_value (mn v mx m : ℚ) (h1 : mn ≤ v) (h2 : v ≤ mx)
    (hl : lowerBound ≤ m) (hu : m ≤ upperBound)
    (hmn : -XDouble.overflowThreshold < mn) (hmx : mx < XDouble.overflowThreshold)
    (hd : mx - mn < XDouble.overflowThreshold) :
    XDouble.add (XDouble.fin v) (XDouble.mul (XDouble.fin m)
      (if XDouble.gt (XDouble.fin m) (XDouble.fin 0) = true
        then XDouble.sub (XDouble.fin mx) (XDouble.fin v)
        else XDouble.sub (XDouble.fin v) (XDouble.fin mn))) =
      XDouble.fin (v + m * (if m > 0 then mx - v else v - mn)) := by
  have hr := randomized_value_in_range v mn mx m h1 h2 hl hu
  unfold lowerBound at hl
  unfold upperBound at hu
  have hP := XDouble.overflowThreshold_pos
  rw [XDouble.gt_fin]
  by_cases hpos : m > 0
  · rw [if_pos hpos] at hr
    have hpos0 : (0 : ℚ) < m := hpos
    simp only [hpos0, decide_True, if_true, gt_iff_lt]
    have e1 : XDouble.sub (XDouble.fin mx) (XDouble.fin v) = XDouble.fin (mx - v) := by
      simp only [XDouble.sub, XDouble.neg, XDouble.add]
      rw [← sub_eq_add_neg]
      exact XDouble.ofExact_of_lt _ (by linarith) (by linarith)
    have hdd : 0 ≤ mx - v := by linarith
    have e2 : XDouble.mul (XDouble.fin m) (XDouble.fin (mx - v)) =
        XDouble.fin (m * (mx - v)) := by
      simp only [XDouble.mul]
      exact XDouble.ofExact_of_lt _
        (by nlinarith [mul_nonneg hpos.le hdd])
        (by nlinarith [mul_nonneg hdd (show (0 : ℚ) ≤ 1 - m by linarith)])
    rw [e1, e2]
    simp only [XDouble.add]
    exact XDouble.ofExact_of_lt _ (by linarith [hr.1]) (by linarith [hr.2])
  · rw [if_neg hpos] at hr
    have hneg : m ≤ 0 := not_lt.mp hpos
    have hpos0 : ¬ (0 : ℚ) < m := hpos
    simp only [hpos0, decide_False, if_false, gt_iff_lt, Bool.false_eq_true]
    have e1 : XDouble.sub (XDouble.fin v) (XDouble.fin mn) = XDouble.fin (v - mn) := by
      simp only [XDouble.sub, XDouble.neg, XDouble.add]
      rw [← sub_eq_add_neg]
      exact XDouble.ofExact_of_lt _ (by linarith) (by linarith)
    have hdd : 0 ≤ v - mn := by linarith
    have e2 : XDouble.mul (XDouble.fin m) (XDouble.fin (v - mn)) =
        XDouble.fin (m * (v - mn)) := by
      simp only [XDouble.mul]
      exact XDouble.ofExact_of_lt _
        (by nlinarith [mul_nonneg hdd (show (0 : ℚ) ≤ 1 + m by linarith)])
        (by nlinarith [mul_nonneg hdd (show (0 : ℚ) ≤ -m by linarith)])
    rw [e1, e2]
    simp only [XDouble.add]
    exact XDouble.ofExact_of_lt _ (by linarith [hr.1]) (by linarith [hr.2])

/-- C26 (claim as stated fails): a real-valued parameter with `min = -2^1023`,
`max = 2^1023` and `val = min`, so that `min ≤ val ≤ max`, and the multiplier
`mul = 1/16`, which lies in `[-0.1, 0.1]`; all four are doubles.  The
difference `max - val = 2^1024` overflows to `+inf`, and so do `mul·(+inf)` and
`val + (+inf)`: the parameter is set to `+inf`, which is not `≤ max`.
Likewise a parameter with `val = 0` in the range `(-inf, +inf)` and the
multiplier `mul = 0`: `val - min` is `+inf`, `0·(+inf)` is NaN, and the
parameter is set to NaN, which is neither `≥ min` nor `≤ max`. -/
theorem C26_randomized_value_overflows :
    XDouble.le (XDouble.fin (-2 ^ 1023)) (XDouble.fin (-2 ^ 1023)) = true ∧
    XDouble.le (XDouble.fin (-2 ^ 1023)) (XDouble.fin (2 ^ 1023)) = true ∧
    lowerBound ≤ 1 / 16 ∧ (1 / 16 : ℚ) ≤ upperBound ∧
    randomizeParameters XDouble.arith
        (⟨fun s => s.1, fun s => s.2.1, fun s => s.2.2,
          fun s x => XDouble.le s.2.1 x && XDouble.le x s.2.2, fun s x => (x, s.2)⟩ :
          RealLValueOps XDouble (XDouble × XDouble × XDouble))
        (fun _ => XDouble.fin (1 / 16))
        [(Arg.realLValue (XDouble.fin (-2 ^ 1023), XDouble.fin (-2 ^ 1023),
          XDouble.fin (2 ^ 1023)) : Arg (XDouble × XDouble × XDouble) Unit)] =
      [Arg.realLValue (XDouble.posInf, XDouble.fin (-2 ^ 1023), XDouble.fin (2 ^ 1023))] ∧
    XDouble.le XDouble.posInf (XDouble.fin (2 ^ 1023)) = false ∧
    XDouble.le XDouble.negInf (XDouble.fin 0) = true ∧
    XDouble.le (XDouble.fin 0) XDouble.posInf = true ∧
    lowerBound ≤ 0 ∧ (0 : ℚ) ≤ upperBound ∧
    randomizeParameters XDouble.arith
        (⟨fun s => s.1, fun s => s.2.1, fun s => s.2.2,
          fun s x => XDouble.le s.2.1 x && XDouble.le x s.2.2, fun s x => (x, s.2)⟩ :
          RealLValueOps XDouble (XDouble × XDouble × XDouble))
        (fun _ => XDouble.fin 0)
        [(Arg.realLValue (XDouble.fin 0, XDouble.negInf, XDouble.posInf) :
          Arg (XDouble × XDouble × XDouble) Unit)] =
      [Arg.realLValue (XDouble.nan, XDouble.negInf, XDouble.posInf)] ∧
    XDouble.le XDouble.negInf XDouble.nan = false ∧
    XDouble.le XDouble.nan XDouble.posInf = false := by
  have h1 : XDouble.gt (XDouble.fin (1 / 16)) (XDouble.fin 0) = true := by
    simp [XDouble.gt, XDouble.le]
  have h2 : XDouble.sub (XDouble.fin (2 ^ 1023)) (XDouble.fin (-2 ^ 1023)) = XDouble.posInf := by
    simp only [XDouble.sub, XDouble.neg, XDouble.add, XDouble.ofExact,
      XDouble.overflowThreshold]
    norm_num
  have h3 : XDouble.mul (XDouble.fin (1 / 16)) XDouble.posInf = XDouble.posInf := by
    simp [XDouble.mul, XDouble.signedInf]
  have h4 : XDouble.add (XDouble.fin (-2 ^ 1023)) XDouble.posInf = XDouble.posInf := rfl
  have h5 : XDouble.gt (XDouble.fin 0) (XDouble.fin 0) = false := by
    simp [XDouble.gt, XDouble.le]
  have h6 : XDouble.sub (XDouble.fin 0) XDouble.negInf = XDouble.posInf := rfl
  have h7 : XDouble.mul (XDouble.fin 0) XDouble.posInf = XDouble.nan := by
    simp [XDouble.mul, XDouble.signedInf]
  have h8 : XDouble.add (XDouble.fin 0) XDouble.nan = XDouble.nan := rfl
  refine ⟨by simp [XDouble.le], by simp [XDouble.le], by norm_num [lowerBound],
    by norm_num [upperBound], ?_, rfl, rfl, rfl, by norm_num [lowerBound],
    by norm_num [upperBound], ?_, rfl, rfl⟩
  · simp only [randomizeParameters, randomizeFrom, randomizeStep, XDouble.arith, h1, h2,
      h3, h4, if_true]
  · simp only [randomizeParameters, randomizeFrom, randomizeStep, XDouble.arith, h5, h6,
      h7, h8, Bool.false_eq_true, if_false]

/-- C26 (amended): `randomizeParameters` keeps the number and order of the
elements; an element that is not a real lvalue is left unchanged; a real
lvalue at position `i` is set to `val + mul·(max - val)` when the number `mul`
drawn for it satisfies `mul > 0` and to `val + mul·(val - min)` otherwise, the
sum, product, difference and comparison being those of the arithmetic of
doubles, whatever it is.  In the arithmetic that overflows as binary64 does
(rounding left aside), for finite `min ≤ val ≤ max` with `max - min` below
the overflow threshold and `mul` in `[-0.1, 0.1]`, the new value is finite and
lies in `[min, max]`; for a finite `val`, the new value is `+inf` when
`mul > 0` and `max = +inf`, it is `-inf` when `mul < 0` and `min = -inf`, and
it is NaN when `mul = 0` and `min = -inf`.  `setVal` is assumed to store the
value it is given. -/
theorem C26_randomizeParameters_new_value {D σ τ υ : Type} (ar : DoubleArith D)
    (ops : RealLValueOps D σ) (draw : Nat → D) (parameters : List (Arg σ τ)) (i : Nat)
    (hget : ∀ (s : σ) (x : D), ops.getVal (ops.setVal s x) = x)
    (xops : RealLValueOps XDouble υ) (xdraw : Nat → XDouble) (xparameters : List (Arg υ τ))
    (hxget : ∀ (s : υ) (x : XDouble), xops.getVal (xops.setVal s x) = x) :
    (randomizeParameters ar ops draw parameters).length = parameters.length ∧
    (∀ obj, parameters[i]? = some (Arg.other obj) →
      (randomizeParameters ar ops draw parameters)[i]? = some (Arg.other obj)) ∧
    (∀ par, parameters[i]? = some (Arg.realLValue par) →
      ∃ par1, (randomizeParameters ar ops draw parameters)[i]? = some (Arg.realLValue par1) ∧
        (ar.gt (draw i) (ar.lit 0) = true →
          ops.getVal par1 = ar.add (ops.getVal par)
            (ar.mul (draw i) (ar.sub (ops.getMax par) (ops.getVal par)))) ∧
        (ar.gt (draw i) (ar.lit 0) = false →
          ops.getVal par1 = ar.add (ops.getVal par)
            (ar.mul (draw i) (ar.sub (ops.getVal par) (ops.getMin par))))) ∧
    (∀ (par : υ) (mn v mx m : ℚ), xparameters[i]? = some (Arg.realLValue par) →
      xops.getMin par = XDouble.fin mn → xops.getVal par = XDouble.fin v →
      xops.getMax par = XDouble.fin mx → xdraw i = XDouble.fin m →
      mn ≤ v → v ≤ mx → lowerBound ≤ m → m ≤ upperBound →
      -XDouble.overflowThreshold < mn → mx < XDouble.overflowThreshold →
      mx - mn < XDouble.overflowThreshold →
      ∃ par1 w, (randomizeParameters XDouble.arith xops xdraw xparameters)[i]? =
          some (Arg.realLValue par1) ∧
        xops.getVal par1 = XDouble.fin w ∧ mn ≤ w ∧ w ≤ mx) ∧
    (∀ (par : υ) (v m : ℚ), xparameters[i]? = some (Arg.realLValue par) →
      xops.getVal par = XDouble.fin v → xdraw i = XDouble.fin m →
      ∃ par1, (randomizeParameters XDouble.arith xops xdraw xparameters)[i]? =
          some (Arg.realLValue par1) ∧
        (0 < m → xops.getMax par = XDouble.posInf → xops.getVal par1 = XDouble.posInf) ∧
        (m < 0 → xops.getMin par = XDouble.negInf → xops.getVal par1 = XDouble.negInf) ∧
        (m = 0 → xops.getMin par = XDouble.negInf → xops.getVal par1 = XDouble.nan)) := by
  have hpos : (randomizeParameters ar ops draw parameters)[i]? =
      (parameters[i]?).map (randomizeStep ar ops (draw i)) := by
    unfold randomizeParameters
    rw [randomizeFrom_getElem?, Nat.zero_add]
  have hxpos : (randomizeParameters XDouble.arith xops xdraw xparameters)[i]? =
      (xparameters[i]?).map (randomizeStep XDouble.arith xops (xdraw i)) := by
    unfold randomizeParameters
    rw [randomizeFrom_getElem?, Nat.zero_add]
  refine ⟨randomizeFrom_length ar ops draw 0 parameters, ?_, ?_, ?_, ?_⟩
  · intro obj hobj
    rw [hpos, hobj]
    rfl
  · intro par hpar
    refine ⟨_, by rw [hpos, hpar]; rfl, ?_, ?_⟩
    · intro hm
      rw [hget, if_pos hm]
    · intro hm
      rw [hget, if_neg (by simp [hm])]
  · intro par mn v mx m hpar hmin hval hmax hdraw h1 h2 hl hu hmn hmx hd
    refine ⟨_, v + m * (if m > 0 then mx - v else v - mn), by rw [hxpos, hpar]; rfl, ?_,
      randomized_value_in_range v mn mx m h1 h2 hl hu⟩
    rw [hxget, hmin, hval, hmax, hdraw]
    exact XDouble.randomized_value mn v mx m h1 h2 hl hu hmn hmx hd
  · intro par v m hpar hval hdraw
    refine ⟨_, by rw [hxpos, hpar]; rfl, ?_, ?_, ?_⟩
    · intro hm hmax
      rw [hxget, hval, hdraw, hmax]
      have hg : XDouble.arith.gt (XDouble.fin m) (XDouble.arith.lit 0) = true := by
        show XDouble.gt (XDouble.fin m) (XDouble.fin 0) = true
        rw [XDouble.gt_fin]
        exact decide_eq_true hm
      rw [if_pos hg]
      show XDouble.add (XDouble.fin v)
        (XDouble.mul (XDouble.fin m) (XDouble.sub XDouble.posInf (XDouble.fin v))) = _
      simp [XDouble.sub, XDouble.neg, XDouble.add, XDouble.mul, XDouble.signedInf, hm, hm.ne']
    · intro hm hmin
      rw [hxget, hval, hdraw, hmin]
      have hg : XDouble.arith.gt (XDouble.fin m) (XDouble.arith.lit 0) = false := by
        show XDouble.gt (XDouble.fin m) (XDouble.fin 0) = false
        rw [XDouble.gt_fin]
        exact decide_eq_false (not_lt.mpr hm.le)
      rw [if_neg (by simp [hg])]
      show XDouble.add (XDouble.fin v)
        (XDouble.mul (XDouble.fin m) (XDouble.sub (XDouble.fin v) XDouble.negInf)) = _
      simp [XDouble.sub, XDouble.neg, XDouble.add, XDouble.mul, XDouble.signedInf, hm.ne,
        not_lt.mpr hm.le]
    · intro hm hmin
      rw [hxget, hval, hdraw, hmin]
      have hg : XDouble.arith.gt (XDouble.fin m) (XDouble.arith.lit 0) = false := by
        show XDouble.gt (XDouble.fin m) (XDouble.fin 0) = false
        rw [XDouble.gt_fin]
        exact decide_eq_false (by rw [hm]; exact lt_irrefl 0)
      rw [if_neg (by simp [hg])]
      show XDouble.add (XDouble.fin v)
        (XDouble.mul (XDouble.fin m) (XDouble.sub (XDouble.fin v) XDouble.negInf)) = _
      simp [XDouble.sub, XDouble.neg, XDouble.add, XDouble.mul, XDouble.signedInf, hm]

/-- C26 (witness): the statement for a set holding a variable with value `1`
in the range `[0, 2]` and an object that is not a real lvalue, every number
drawn being `1/10`: the object is left as it is and the new value of the
variable is finite, within `[0, 2]`. -/
theorem C26_randomizeParameters_new_value_witness :
    (randomizeParameters exactArith.toDoubleArith
        (⟨fun s => s.1, fun s => s.2.1, fun s => s.2.2,
          fun s x => decide (s.2.1 ≤ x ∧ x ≤ s.2.2), fun s x => (x, s.2)⟩ :
          RealLValueOps ℚ (ℚ × ℚ × ℚ))
        (fun _ => 1 / 10) [Arg.realLValue (1, 0, 2), Arg.other ()])[1]? =
      some (Arg.other ()) ∧
    ∃ par1 w, (randomizeParameters XDouble.arith
        (⟨fun s => s.1, fun s => s.2.1, fun s => s.2.2,
          fun s x => XDouble.le s.2.1 x && XDouble.le x s.2.2, fun s x => (x, s.2)⟩ :
          RealLValueOps XDouble (XDouble × XDouble × XDouble))
        (fun _ => XDouble.fin (1 / 10))
        [Arg.realLValue (XDouble.fin 1, XDouble.fin 0, XDouble.fin 2), Arg.other ()])[0]? =
          some (Arg.realLValue par1) ∧
      par1.1 = XDouble.fin w ∧ (0 : ℚ) ≤ w ∧ w ≤ 2 :=
  have h := C26_randomizeParameters_new_value exactArith.toDoubleArith
    (⟨fun s => s.1, fun s => s.2.1, fun s => s.2.2,
      fun s x => decide (s.2.1 ≤ x ∧ x ≤ s.2.2), fun s x => (x, s.2)⟩ :
      RealLValueOps ℚ (ℚ × ℚ × ℚ))
    (fun _ => 1 / 10) [Arg.realLValue (1, 0, 2), Arg.other ()] 1 (fun _ _ => rfl)
    (⟨fun s => s.1, fun s => s.2.1, fun s => s.2.2,
      fun s x => XDouble.le s.2.1 x && XDouble.le x s.2.2, fun s x => (x, s.2)⟩ :
      RealLValueOps XDouble (XDouble × XDouble × XDouble))
    (fun _ => XDouble.fin (1 / 10))
    [Arg.realLValue (XDouble.fin 1, XDouble.fin 0, XDouble.fin 2), Arg.other ()]
    (fun _ _ => rfl)
  have h0 := C26_randomizeParameters_new_value exactArith.toDoubleArith
    (⟨fun s => s.1, fun s => s.2.1, fun s => s.2.2,
      fun s x => decide (s.2.1 ≤ x ∧ x ≤ s.2.2), fun s x => (x, s.2)⟩ :
      RealLValueOps ℚ (ℚ × ℚ × ℚ))
    (fun _ => 1 / 10) [Arg.realLValue (1, 0, 2), Arg.other ()] 0 (fun _ _ => rfl)
    (⟨fun s => s.1, fun s => s.2.1, fun s => s.2.2,
      fun s x => XDouble.le s.2.1 x && XDouble.le x s.2.2, fun s x => (x, s.2)⟩ :
      RealLValueOps XDouble (XDouble × XDouble × XDouble))
    (fun _ => XDouble.fin (1 / 10))
    [Arg.realLValue (XDouble.fin 1, XDouble.fin 0, XDouble.fin 2), Arg.other ()]
    (fun _ _ => rfl)
  ⟨h.2.1 () rfl,
   h0.2.2.2.1 (XDouble.fin 1, XDouble.fin 0, XDouble.fin 2) 0 1 2 (1 / 10) rfl rfl rfl rfl rfl
     (by norm_num) (by norm_num) (by norm_num [lowerBound]) (by norm_num [upperBound])
     (by norm_num [XDouble.overflowThreshold]) (by norm_num [XDouble.overflowThreshold])
     (by norm_num [XDouble.overflowThreshold])⟩

end RooFuncWrapperTest
